import Mathlib

/-!
Verification of the 1inch-Hackathon cross-chain HTLC escrow contracts.

The development embeds three contract variants shallowly:
* the Cosmos (CosmWasm) Fusion+ contract (src/contracts/cosmos/src/lib.rs),
* the NEAR Fusion+ contract (src/contracts/near/src/lib.rs),
* the NEAR standalone HTLC contract (src/contracts/near/src/lib_standalone.rs).

Machine integers (Uint128 / u128) are modelled as Nat with explicit
bounds 2^128 where the source uses checked arithmetic or where overflow
matters.  Fallible entry points return Except; a CosmWasm error rolls the
whole call back, so an error result commits no state and no bank messages.
-/

set_option maxRecDepth 100000

namespace Fusion

/-! ## SHA-256 over byte lists (bytes are Nat < 256) -/

def w32 (n : Nat) : Nat := n % 4294967296

def rotr32 (n x : Nat) : Nat := w32 ((x >>> n) ||| (x <<< (32 - n)))

def sha256ch (x y z : Nat) : Nat := (x &&& y) ^^^ ((x ^^^ 4294967295) &&& z)

def sha256maj (x y z : Nat) : Nat := (x &&& y) ^^^ (x &&& z) ^^^ (y &&& z)

def bigSigma0 (x : Nat) : Nat := rotr32 2 x ^^^ rotr32 13 x ^^^ rotr32 22 x

def bigSigma1 (x : Nat) : Nat := rotr32 6 x ^^^ rotr32 11 x ^^^ rotr32 25 x

def smallSigma0 (x : Nat) : Nat := rotr32 7 x ^^^ rotr32 18 x ^^^ (x >>> 3)

def smallSigma1 (x : Nat) : Nat := rotr32 17 x ^^^ rotr32 19 x ^^^ (x >>> 10)

def shaK : List Nat :=
  [1116352408, 1899447441, 3049323471, 3921009573, 961987163,
   1508970993, 2453635748, 2870763221, 3624381080, 310598401,
   607225278, 1426881987, 1925078388, 2162078206, 2614888103,
   3248222580, 3835390401, 4022224774, 264347078, 604807628,
   770255983, 1249150122, 1555081692, 1996064986, 2554220882,
   2821834349, 2952996808, 3210313671, 3336571891, 3584528711,
   113926993, 338241895, 666307205, 773529912, 1294757372,
   1396182291, 1695183700, 1986661051, 2177026350, 2456956037,
   2730485921, 2820302411, 3259730800, 3345764771, 3516065817,
   3600352804, 4094571909, 275423344, 430227734, 506948616,
   659060556, 883997877, 958139571, 1322822218, 1537002063,
   1747873779, 1955562222, 2024104815, 2227730452, 2361852424,
   2428436474, 2756734187, 3204031479, 3329325298]

def shaH0 : List Nat :=
  [1779033703, 3144134277, 1013904242, 2773480762,
   1359893119, 2600822924, 528734635, 1541459225]

def scheduleStep (w : Array Nat) (_ : Nat) : Array Nat :=
  let i := w.size
  w.push (w32 (w.getD (i - 16) 0 + smallSigma0 (w.getD (i - 15) 0) +
               w.getD (i - 7) 0 + smallSigma1 (w.getD (i - 2) 0)))

def messageSchedule (block : List Nat) : Array Nat :=
  (List.range 48).foldl scheduleStep (Array.mk block)

structure SHAState where
  a : Nat
  b : Nat
  c : Nat
  d : Nat
  e : Nat
  f : Nat
  g : Nat
  hh : Nat

def compressRound (w : Array Nat) (st : SHAState) (i : Nat) : SHAState :=
  let t1 := w32 (st.hh + bigSigma1 st.e + sha256ch st.e st.f st.g +
                 shaK.getD i 0 + w.getD i 0)
  let t2 := w32 (bigSigma0 st.a + sha256maj st.a st.b st.c)
  { a := w32 (t1 + t2), b := st.a, c := st.b, d := st.c,
    e := w32 (st.d + t1), f := st.e, g := st.f, hh := st.g }

def bytesToWords (chunk : List Nat) : List Nat :=
  (List.range 16).map fun j =>
    chunk.getD (4 * j) 0 * 16777216 + chunk.getD (4 * j + 1) 0 * 65536 +
    chunk.getD (4 * j + 2) 0 * 256 + chunk.getD (4 * j + 3) 0

def compressBlock (hv : List Nat) (chunk : List Nat) : List Nat :=
  let w := messageSchedule (bytesToWords chunk)
  let init : SHAState :=
    ⟨hv.getD 0 0, hv.getD 1 0, hv.getD 2 0, hv.getD 3 0,
     hv.getD 4 0, hv.getD 5 0, hv.getD 6 0, hv.getD 7 0⟩
  let st := (List.range 64).foldl (compressRound w) init
  [w32 (hv.getD 0 0 + st.a), w32 (hv.getD 1 0 + st.b),
   w32 (hv.getD 2 0 + st.c), w32 (hv.getD 3 0 + st.d),
   w32 (hv.getD 4 0 + st.e), w32 (hv.getD 5 0 + st.f),
   w32 (hv.getD 6 0 + st.g), w32 (hv.getD 7 0 + st.hh)]

def padMessage (msg : List Nat) : List Nat :=
  let len := msg.length
  let zeros := (120 - (len + 1) % 64) % 64
  let bitLen := len * 8
  msg ++ 128 :: List.replicate zeros 0 ++
    (List.range 8).map (fun i => (bitLen >>> (8 * (7 - i))) % 256)

def sha256Words (msg : List Nat) : List Nat :=
  let padded := padMessage msg
  let blocks := (List.range (padded.length / 64)).map
    fun i => (padded.drop (64 * i)).take 64
  blocks.foldl compressBlock shaH0

/-- SHA-256 digest of a byte list, as a list of 32 bytes. -/
def sha256 (msg : List Nat) : List Nat :=
  (sha256Words msg).foldr
    (fun wrd acc =>
      (wrd >>> 24) % 256 :: (wrd >>> 16) % 256 :: (wrd >>> 8) % 256 :: wrd % 256 :: acc)
    []

/-! ## Hex encoding / decoding and string helpers -/

def hexDigitChar (n : Nat) : Char :=
  if n < 10 then Char.ofNat (48 + n) else Char.ofNat (87 + n)

/-- Lowercase hex encoding of a byte list (mirrors Rust `hex::encode`). -/
def hexEncode (bytes : List Nat) : String :=
  String.mk (bytes.foldr
    (fun b acc => hexDigitChar (b / 16) :: hexDigitChar (b % 16) :: acc) [])

def hexVal (c : Char) : Option Nat :=
  if '0' ≤ c ∧ c ≤ '9' then some (c.toNat - 48)
  else if 'a' ≤ c ∧ c ≤ 'f' then some (c.toNat - 87)
  else if 'A' ≤ c ∧ c ≤ 'F' then some (c.toNat - 55)
  else none

def hexDecodeList : List Char → Option (List Nat)
  | [] => some []
  | [_] => none
  | c1 :: c2 :: rest =>
    match hexVal c1, hexVal c2, hexDecodeList rest with
    | some hi, some lo, some r => some ((16 * hi + lo) :: r)
    | _, _, _ => none

/-- Hex decoding of a string (mirrors Rust `hex::decode`). -/
def hexDecode (s : String) : Option (List Nat) := hexDecodeList s.data

/-- ASCII lowercasing of one character.  Rust `str::to_lowercase` performs
Unicode lowercasing, but in this contract the lowercased strings are only
ever compared against ASCII lowercase hex output, and no non-ASCII character
lowercases into the hex alphabet, so ASCII lowercasing is extensionally
faithful for those comparisons. -/
def asciiLowerChar (c : Char) : Char :=
  if 'A' ≤ c ∧ c ≤ 'Z' then Char.ofNat (c.toNat + 32) else c

def asciiLower (s : String) : String := String.mk (s.data.map asciiLowerChar)

/-- Rust `char::is_ascii_hexdigit`. -/
def isAsciiHexDigit (c : Char) : Bool :=
  (('0' ≤ c) && (c ≤ '9')) || (('a' ≤ c) && (c ≤ 'f')) || (('A' ≤ c) && (c ≤ 'F'))

def utf8EncodeChar (c : Char) : List Nat :=
  let n := c.toNat
  if n < 128 then [n]
  else if n < 2048 then [192 + n / 64, 128 + n % 64]
  else if n < 65536 then [224 + n / 4096, 128 + (n / 64) % 64, 128 + n % 64]
  else [240 + n / 262144, 128 + (n / 4096) % 64, 128 + (n / 64) % 64, 128 + n % 64]

/-- UTF-8 bytes of a string (Rust `str::as_bytes`). -/
def strBytes (s : String) : List Nat :=
  (s.data.map utf8EncodeChar).foldr (· ++ ·) []

end Fusion

namespace Fusion

/-! ## Cosmos contract data model (src/contracts/cosmos/src/lib.rs)

`Uint128` values are `Nat` with checked operations bounding by `2^128`.
`Timestamp` is nanoseconds since epoch, as in cosmwasm_std; `plus_seconds`
adds `seconds * 1_000_000_000`.  `Addr` is a plain string: `addr_validate`
is host bech32 validation, excluded from the core by the spec.  The
`cw_storage_plus::Map` stores are embedded as key-sorted association
lists, matching the map's ascending-key range semantics. -/

inductive OrderStatus
  | Pending
  | Matched
  | Claimed
  | Refunded
deriving DecidableEq, Repr

/-- Rust `format!("{:?}", status)`. -/
def statusDebug : OrderStatus → String
  | .Pending => "Pending"
  | .Matched => "Matched"
  | .Claimed => "Claimed"
  | .Refunded => "Refunded"

structure FusionPlusOrder where
  order_hash : String
  hashlock : String
  timelocks : String
  maker : String
  resolver : String
  amount : Nat
  resolver_fee : Nat
  safety_deposit : Nat
  status : OrderStatus
  preimage : Option String
  source_chain_id : Nat
  created_at : Nat
  timeout : Nat
deriving DecidableEq, Repr

structure Config where
  admin : String
  min_safety_deposit_bps : Nat
  native_denom : String
deriving DecidableEq, Repr

structure Storage where
  config : Config
  orders : List (String × FusionPlusOrder)
  resolvers : List (String × Bool)
deriving DecidableEq, Repr

structure MessageInfo where
  sender : String
  funds : List (String × Nat)
deriving DecidableEq, Repr

structure EnvC where
  blockTime : Nat
deriving DecidableEq, Repr

inductive ContractError
  | Std (msg : String)
  | Overflow
  | Unauthorized
  | OrderNotFound (order_hash : String)
  | OrderAlreadyExists (order_hash : String)
  | InvalidHashlock
  | InvalidPreimage
  | OrderAlreadyClaimed
  | OrderAlreadyRefunded
  | TimelockNotExpired
  | TimelockExpired
  | InsufficientSafetyDeposit (expected actual : Nat)
  | UnauthorizedResolver
  | InvalidOrderStatus (status : String)
deriving DecidableEq, Repr

structure BankSend where
  to_address : String
  amount : List (String × Nat)
deriving DecidableEq, Repr

structure EventC where
  ty : String
  attributes : List (String × String)
deriving DecidableEq, Repr

structure ResponseC where
  messages : List BankSend
  events : List EventC
  attributes : List (String × String)
deriving DecidableEq, Repr

/-! ## Association-list storage primitives -/

def assocLookup {β : Type} : List (String × β) → String → Option β
  | [], _ => none
  | (k, v) :: rest, key => if k = key then some v else assocLookup rest key

/-- Lexicographic comparison of character lists by codepoint.  UTF-8 is
codepoint-order preserving, so this is exactly the byte order in which
`cw_storage_plus::Map` stores and ranges over string keys. -/
def charListLt : List Char → List Char → Bool
  | [], [] => false
  | [], _ :: _ => true
  | _ :: _, [] => false
  | a :: as, b :: bs =>
    if a.toNat < b.toNat then true
    else if b.toNat < a.toNat then false
    else charListLt as bs

def strLt (a b : String) : Bool := charListLt a.data b.data

/-- `Map::save`: insert or overwrite, keeping keys in ascending order. -/
def insertSorted {β : Type} (key : String) (val : β) :
    List (String × β) → List (String × β)
  | [] => [(key, val)]
  | (k, v) :: rest =>
    if strLt key k then (key, val) :: (k, v) :: rest
    else if key = k then (key, val) :: rest
    else (k, v) :: insertSorted key val rest

/-- `Map::remove`. -/
def assocErase {β : Type} (key : String) :
    List (String × β) → List (String × β)
  | [] => []
  | (k, v) :: rest => if k = key then rest else (k, v) :: assocErase key rest

/-! ## Checked Uint128 arithmetic

The Rust source maps every checked-operation error (overflow for mul/add,
divide-by-zero for div) to `ContractError::Overflow` via `map_err`. -/

def U128_MOD : Nat := 2 ^ 128

def checkedMul (a b : Nat) : Except ContractError Nat :=
  if a * b < U128_MOD then .ok (a * b) else .error .Overflow

def checkedAdd (a b : Nat) : Except ContractError Nat :=
  if a + b < U128_MOD then .ok (a + b) else .error .Overflow

def checkedDiv (a b : Nat) : Except ContractError Nat :=
  if b = 0 then .error .Overflow else .ok (a / b)

/-- Rust `str::len` (UTF-8 byte length). -/
def byteLen (s : String) : Nat := (strBytes s).length

/-- src/contracts/cosmos/src/lib.rs `validate_preimage`: the SHA-256 of the
preimage's UTF-8 bytes, hex encoded, must equal the hashlock up to ASCII
case. -/
def validate_preimage (preimage hashlock : String) : Bool :=
  asciiLower (hexEncode (sha256 (strBytes preimage))) == asciiLower hashlock

/-- The funds attached in the native denom: first matching coin, else zero. -/
def sentFunds (info : MessageInfo) (denom : String) : Nat :=
  ((info.funds.find? (fun c => c.1 == denom)).map (fun c => c.2)).getD 0

structure InstantiateMsg where
  admin : Option String
  min_safety_deposit_bps : Option Nat
  native_denom : String
deriving DecidableEq, Repr

def instantiate (info : MessageInfo) (msg : InstantiateMsg) :
    Except ContractError (Storage × ResponseC) :=
  let admin := msg.admin.getD info.sender
  let bps := msg.min_safety_deposit_bps.getD 500
  if bps = 0 ∨ bps > 10000 then
    .error (.Std "Safety deposit must be between 1 and 10000 basis points")
  else
    .ok ({ config := { admin := admin, min_safety_deposit_bps := bps,
                       native_denom := msg.native_denom },
           orders := [], resolvers := [(info.sender, true)] },
         { messages := [], events := [],
           attributes := [("method", "instantiate"), ("admin", admin),
                          ("min_safety_deposit_bps", toString bps),
                          ("initial_resolver", info.sender)] })

/-- src/contracts/cosmos/src/lib.rs `execute_fusion_order`. -/
def executeFusionOrder (s : Storage) (env : EnvC) (info : MessageInfo)
    (order_hash hashlock timelocks maker : String)
    (amount resolver_fee source_chain_id timeout_seconds : Nat) :
    Except ContractError (Storage × ResponseC) :=
  if ¬ ((assocLookup s.resolvers info.sender).getD false) then
    .error .UnauthorizedResolver
  else if (assocLookup s.orders order_hash).isSome then
    .error (.OrderAlreadyExists order_hash)
  else if ¬ (byteLen hashlock = 64 ∧ hashlock.data.all isAsciiHexDigit) then
    .error .InvalidHashlock
  else
    let config := s.config
    match checkedMul amount config.min_safety_deposit_bps with
    | .error e => .error e
    | .ok prod =>
      match checkedDiv prod 10000 with
      | .error e => .error e
      | .ok required_safety_deposit =>
        match checkedAdd amount resolver_fee with
        | .error e => .error e
        | .ok t =>
          match checkedAdd t required_safety_deposit with
          | .error e => .error e
          | .ok expected_total =>
            let sent := sentFunds info config.native_denom
            if sent < expected_total then
              .error (.InsufficientSafetyDeposit expected_total sent)
            else
              let timeout := env.blockTime + timeout_seconds * 1000000000
              let order : FusionPlusOrder :=
                { order_hash := order_hash, hashlock := hashlock,
                  timelocks := timelocks, maker := maker,
                  resolver := info.sender, amount := amount,
                  resolver_fee := resolver_fee,
                  safety_deposit := required_safety_deposit,
                  status := .Matched, preimage := none,
                  source_chain_id := source_chain_id,
                  created_at := env.blockTime, timeout := timeout }
              .ok ({ s with orders := insertSorted order_hash order s.orders },
                   { messages := [],
                     events := [⟨"fusion_order_created",
                       [("order_hash", order_hash), ("maker", maker),
                        ("resolver", info.sender), ("amount", toString amount),
                        ("source_chain_id", toString source_chain_id)]⟩],
                     attributes := [("method", "execute_fusion_order"),
                                    ("order_hash", order_hash)] })

/-- src/contracts/cosmos/src/lib.rs `claim_fusion_order`.  `ORDERS.load` on a
missing key surfaces as a wrapped `StdError::NotFound`. -/
def claimFusionOrder (s : Storage) (env : EnvC) (info : MessageInfo)
    (order_hash preimage : String) : Except ContractError (Storage × ResponseC) :=
  match assocLookup s.orders order_hash with
  | none => .error (.Std ("not found: " ++ order_hash))
  | some order =>
    if info.sender ≠ order.resolver then .error .Unauthorized
    else if order.status ≠ .Matched then
      .error (.InvalidOrderStatus (statusDebug order.status))
    else if order.timeout ≤ env.blockTime then .error .TimelockExpired
    else if ¬ validate_preimage preimage order.hashlock then .error .InvalidPreimage
    else
      let order' := { order with
        status := OrderStatus.Claimed
        preimage := some preimage }
      let messages :=
        (if order'.amount = 0 then [] else
          [BankSend.mk order'.maker [(s.config.native_denom, order'.amount)]]) ++
        (if order'.resolver_fee = 0 then [] else
          [BankSend.mk order'.resolver [(s.config.native_denom, order'.resolver_fee)]]) ++
        (if order'.safety_deposit = 0 then [] else
          [BankSend.mk order'.resolver [(s.config.native_denom, order'.safety_deposit)]])
      .ok ({ s with orders := insertSorted order_hash order' s.orders },
           { messages := messages,
             events := [⟨"fusion_order_claimed",
               [("order_hash", order_hash), ("resolver", order'.resolver),
                ("preimage", preimage), ("amount", toString order'.amount)]⟩],
             attributes := [("method", "claim_fusion_order"),
                            ("order_hash", order_hash)] })

/-- src/contracts/cosmos/src/lib.rs `refund_order`.  The source saves the
updated order before computing the refund sum; since a CosmWasm error rolls
back the whole call, an arithmetic error commits nothing, which the
`Except` result models directly. -/
def refundOrder (s : Storage) (env : EnvC) (info : MessageInfo)
    (order_hash : String) : Except ContractError (Storage × ResponseC) :=
  match assocLookup s.orders order_hash with
  | none => .error (.Std ("not found: " ++ order_hash))
  | some order =>
    if env.blockTime < order.timeout then .error .TimelockNotExpired
    else if order.status = .Claimed then .error .OrderAlreadyClaimed
    else if order.status = .Refunded then .error .OrderAlreadyRefunded
    else if info.sender ≠ order.maker ∧ info.sender ≠ order.resolver then
      .error .Unauthorized
    else
      let order' := { order with status := OrderStatus.Refunded }
      match checkedAdd order.amount order.resolver_fee with
      | .error e => .error e
      | .ok t =>
        match checkedAdd t order.safety_deposit with
        | .error e => .error e
        | .ok refund_amount =>
          .ok ({ s with orders := insertSorted order_hash order' s.orders },
               { messages :=
                   [BankSend.mk order.resolver [(s.config.native_denom, refund_amount)]],
                 events := [⟨"fusion_order_refunded",
                   [("order_hash", order_hash), ("refunded_to", order.resolver),
                    ("amount", toString refund_amount), ("reason", "timeout")]⟩],
                 attributes := [("method", "refund_order"),
                                ("order_hash", order_hash)] })

def addResolver (s : Storage) (info : MessageInfo) (resolver : String) :
    Except ContractError (Storage × ResponseC) :=
  if info.sender ≠ s.config.admin then .error .Unauthorized
  else
    .ok ({ s with resolvers := insertSorted resolver true s.resolvers },
         { messages := [], events := [],
           attributes := [("method", "add_resolver"), ("resolver", resolver)] })

def removeResolver (s : Storage) (info : MessageInfo) (resolver : String) :
    Except ContractError (Storage × ResponseC) :=
  if info.sender ≠ s.config.admin then .error .Unauthorized
  else
    .ok ({ s with resolvers := assocErase resolver s.resolvers },
         { messages := [], events := [],
           attributes := [("method", "remove_resolver"), ("resolver", resolver)] })

def updateConfig (s : Storage) (info : MessageInfo)
    (admin : Option String) (min_safety_deposit_bps : Option Nat) :
    Except ContractError (Storage × ResponseC) :=
  if info.sender ≠ s.config.admin then .error .Unauthorized
  else
    let config1 := match admin with
      | some a => { s.config with admin := a }
      | none => s.config
    match min_safety_deposit_bps with
    | some newBps =>
      if newBps = 0 ∨ newBps > 10000 then
        .error (.Std "Safety deposit must be between 1 and 10000 basis points")
      else
        .ok ({ s with config := { config1 with min_safety_deposit_bps := newBps } },
             { messages := [], events := [],
               attributes := [("method", "update_config")] })
    | none =>
      .ok ({ s with config := config1 },
           { messages := [], events := [],
             attributes := [("method", "update_config")] })

inductive ExecuteMsg
  | ExecuteFusionOrder (order_hash hashlock timelocks maker : String)
      (amount resolver_fee source_chain_id timeout_seconds : Nat)
  | ClaimFusionOrder (order_hash preimage : String)
  | RefundOrder (order_hash : String)
  | AddResolver (resolver : String)
  | RemoveResolver (resolver : String)
  | UpdateConfig (admin : Option String) (min_safety_deposit_bps : Option Nat)

/-- The Cosmos contract `execute` dispatcher. -/
def execute (s : Storage) (env : EnvC) (info : MessageInfo) :
    ExecuteMsg → Except ContractError (Storage × ResponseC)
  | .ExecuteFusionOrder oh hl tl mk amt fee scid ts =>
      executeFusionOrder s env info oh hl tl mk amt fee scid ts
  | .ClaimFusionOrder oh p => claimFusionOrder s env info oh p
  | .RefundOrder oh => refundOrder s env info oh
  | .AddResolver r => addResolver s info r
  | .RemoveResolver r => removeResolver s info r
  | .UpdateConfig a b => updateConfig s info a b

/-- The ascending-key range scan with exclusive start bound. -/
def ordersRange (s : Storage) (start_after : Option String) :
    List (String × FusionPlusOrder) :=
  match start_after with
  | none => s.orders
  | some st => s.orders.filter (fun kv => strLt st kv.1)

/-- src/contracts/cosmos/src/lib.rs `query_list_orders`: the limit
(default 30, capped at 100) is applied by `take` to the raw scan, and the
status filter runs on the truncated scan. -/
def queryListOrders (s : Storage) (status : Option OrderStatus)
    (start_after : Option String) (limit : Option Nat) : List FusionPlusOrder :=
  let lim := min (limit.getD 30) 100
  ((ordersRange s start_after).take lim).filterMap
    (fun kv => match status with
      | some fs => if kv.2.status = fs then some kv.2 else none
      | none => some kv.2)

/-- Modelled from the claim's words for comparison: the first `limit`
orders that match the status filter, i.e. the filter applied before the
limit. -/
def listOrdersFilterFirst (s : Storage) (status : Option OrderStatus)
    (start_after : Option String) (limit : Option Nat) : List FusionPlusOrder :=
  let lim := min (limit.getD 30) 100
  ((ordersRange s start_after).filterMap
    (fun kv => match status with
      | some fs => if kv.2.status = fs then some kv.2 else none
      | none => some kv.2)).take lim

/-- States reachable by the Cosmos contract: an instantiation followed by
any sequence of successful execute calls. -/
inductive Reachable : Storage → Prop
  | init (info : MessageInfo) (msg : InstantiateMsg) (s : Storage) (r : ResponseC) :
      instantiate info msg = .ok (s, r) → Reachable s
  | step (s : Storage) (env : EnvC) (info : MessageInfo) (msg : ExecuteMsg)
      (s' : Storage) (r : ResponseC) :
      Reachable s → execute s env info msg = .ok (s', r) → Reachable s'

end Fusion

namespace Fusion

/-! ## NEAR Fusion+ contract model (src/contracts/near/src/lib.rs)

NEAR `assert!` failures are panics that abort the call; they are modelled
as `Except String` errors carrying the assertion message.  `u128`
arithmetic in this contract uses plain `+` and `*`: compiled with overflow
checks those panic with the standard Rust message instead of returning any
contract-level error, and without overflow checks they would wrap
silently; either way the contract has no distinct Overflow error.  The
`UnorderedMap` is embedded as an association list (insertion keyed,
iteration order unused by the modelled entry points). -/

def u128Add (a b : Nat) : Except String Nat :=
  if a + b < U128_MOD then .ok (a + b) else .error "attempt to add with overflow"

def u128Mul (a b : Nat) : Except String Nat :=
  if a * b < U128_MOD then .ok (a * b) else .error "attempt to multiply with overflow"

structure NearFusionOrder where
  order_hash : String
  hashlock : String
  timelocks : Nat
  maker : String
  resolver : String
  amount : Nat
  resolver_fee : Nat
  safety_deposit : Nat
  status : OrderStatus
  preimage : Option String
  source_chain_id : Nat
deriving DecidableEq, Repr

structure NearFusionState where
  orders : List (String × NearFusionOrder)
  resolvers : List (String × Bool)
  owner : String
  min_safety_deposit_bps : Nat
deriving DecidableEq, Repr

/-- src/contracts/near/src/lib.rs `execute_fusion_order`. -/
def nearExecuteFusionOrder (st : NearFusionState) (attachedDeposit : Nat)
    (order_hash hashlock maker resolver : String)
    (amount resolver_fee timelocks source_chain_id : Nat) :
    Except String (NearFusionState × NearFusionOrder) :=
  if ¬ ((assocLookup st.resolvers resolver).getD false) then
    .error "Not a 1inch authorized resolver"
  else if (assocLookup st.orders order_hash).isSome then
    .error "Order already exists"
  else
    match u128Add amount resolver_fee with
    | .error e => .error e
    | .ok total_required =>
      if attachedDeposit < total_required then .error "Insufficient deposit"
      else
        match u128Mul amount st.min_safety_deposit_bps with
        | .error e => .error e
        | .ok prod =>
          let safety_deposit := prod / 10000
          match u128Add total_required safety_deposit with
          | .error e => .error e
          | .ok needed =>
            if attachedDeposit < needed then .error "Insufficient safety deposit"
            else if byteLen hashlock ≠ 64 then .error "Invalid hashlock format"
            else
              let order : NearFusionOrder :=
                { order_hash := order_hash, hashlock := hashlock,
                  timelocks := timelocks, maker := maker, resolver := resolver,
                  amount := amount, resolver_fee := resolver_fee,
                  safety_deposit := safety_deposit, status := .Matched,
                  preimage := none, source_chain_id := source_chain_id }
              .ok ({ st with orders := insertSorted order_hash order st.orders },
                   order)

/-- src/contracts/near/src/lib.rs `claim_fusion_order`: the preimage must
be 64 bytes of hex, it is hex-decoded, and the SHA-256 of the decoded
bytes must hex-encode to the hashlock byte-for-byte (case-sensitive). -/
def nearClaimFusionOrder (st : NearFusionState) (caller : String)
    (order_hash preimage : String) : Except String NearFusionState :=
  match assocLookup st.orders order_hash with
  | none => .error "Order not found"
  | some order =>
    if caller ≠ order.resolver then .error "Only resolver can claim"
    else if order.status ≠ .Matched then .error "Order not claimable"
    else if byteLen preimage ≠ 64 then .error "Invalid preimage format"
    else
      match hexDecode preimage with
      | none => .error "Invalid preimage hex"
      | some preimage_bytes =>
        if hexEncode (sha256 preimage_bytes) ≠ order.hashlock then
          .error "Preimage doesn't match hashlock"
        else
          .ok { st with
            orders := insertSorted order_hash
              { order with
                status := OrderStatus.Claimed
                preimage := some preimage } st.orders }

/-! ## NEAR standalone HTLC contract model
(src/contracts/near/src/lib_standalone.rs) -/

structure HTLCOrder where
  id : String
  maker : String
  resolver : Option String
  token_contract : Option String
  amount : Nat
  hashlock : String
  timelock : Nat
  destination_chain : String
  destination_token : String
  destination_amount : Nat
  destination_address : String
  resolver_fee : Nat
  safety_deposit : Nat
  is_claimed : Bool
  is_refunded : Bool
  preimage : Option String
deriving DecidableEq, Repr

/-- src/contracts/near/src/lib_standalone.rs `create_order`.  The caller is
the maker; `amount` is the attached deposit minus the resolver fee;
`timelock` is an absolute block height that must be strictly in the
future; the hashlock check is on byte length only. -/
def createOrder (orders : List (String × HTLCOrder)) (caller : String)
    (attachedDeposit blockHeight : Nat) (order_id hashlock : String)
    (timelock : Nat) (destination_chain destination_token : String)
    (destination_amount : Nat) (destination_address : String)
    (resolver_fee : Nat) : Except String (List (String × HTLCOrder) × HTLCOrder) :=
  if attachedDeposit ≤ resolver_fee then
    .error "Insufficient deposit for resolver fee"
  else
    let amount := attachedDeposit - resolver_fee
    if timelock ≤ blockHeight then .error "Timelock must be in the future"
    else if byteLen hashlock ≠ 64 then
      .error "Hashlock must be 32 bytes (64 hex chars)"
    else if (assocLookup orders order_id).isSome then
      .error "Order ID already exists"
    else
      let order : HTLCOrder :=
        { id := order_id, maker := caller, resolver := none,
          token_contract := none, amount := amount, hashlock := hashlock,
          timelock := timelock, destination_chain := destination_chain,
          destination_token := destination_token,
          destination_amount := destination_amount,
          destination_address := destination_address,
          resolver_fee := resolver_fee, safety_deposit := 0,
          is_claimed := false, is_refunded := false, preimage := none }
      .ok (insertSorted order_id order orders, order)

/-- src/contracts/near/src/lib_standalone.rs `match_order`.  The caller is
the resolver; the required deposit is the hard-coded ten percent of the
order amount (`(order.amount.0 * 10) / 100`, plain u128 arithmetic), and
the FULL attached deposit — not the threshold — is stored as the order's
safety deposit.  The authorized-resolver map is read-only here and passed
as a parameter. -/
def matchOrder (orders : List (String × HTLCOrder))
    (resolvers : List (String × Bool)) (caller : String)
    (attachedDeposit blockHeight : Nat) (order_id : String) :
    Except String (List (String × HTLCOrder) × HTLCOrder) :=
  if ¬ ((assocLookup resolvers caller).getD false) then
    .error "Not an authorized resolver"
  else
    match assocLookup orders order_id with
    | none => .error "Order not found"
    | some order =>
      if order.resolver.isSome then .error "Order already matched"
      else if order.is_claimed || order.is_refunded then .error "Order already settled"
      else if order.timelock ≤ blockHeight then .error "Order expired"
      else
        match u128Mul order.amount 10 with
        | .error e => .error e
        | .ok prod =>
          let required_deposit := prod / 100
          if attachedDeposit < required_deposit then
            .error "Insufficient safety deposit"
          else
            let order' := { order with
              resolver := some caller
              safety_deposit := attachedDeposit }
            .ok (insertSorted order_id order' orders, order')

/-- src/contracts/near/src/lib_standalone.rs `claim_order`.  The caller
must be the matched resolver; the preimage must be 64 bytes of hex whose
DECODED bytes SHA-256-hash to the hashlock; on success the order is marked
claimed with the preimage stored, and a SINGLE transfer of
`amount + resolver_fee` (plain u128 addition) goes to the resolver — the
returned pair is that transfer's (recipient, total).  `order.resolver` is
unwrapped before the comparison, so an unmatched order aborts with the
Option unwrap panic. -/
def claimOrder (orders : List (String × HTLCOrder)) (caller : String)
    (blockHeight : Nat) (order_id preimage : String) :
    Except String (List (String × HTLCOrder) × (String × Nat)) :=
  match assocLookup orders order_id with
  | none => .error "Order not found"
  | some order =>
    match order.resolver with
    | none => .error "called Option::unwrap() on a None value"
    | some rsv =>
      if rsv ≠ caller then .error "Not the resolver"
      else if order.is_claimed || order.is_refunded then .error "Order already settled"
      else if order.timelock ≤ blockHeight then .error "Order expired"
      else if byteLen preimage ≠ 64 then
        .error "Preimage must be 32 bytes (64 hex chars)"
      else
        match hexDecode preimage with
        | none => .error "Invalid preimage hex"
        | some preimage_bytes =>
          if hexEncode (sha256 preimage_bytes) ≠ order.hashlock then
            .error "Preimage doesn't match hashlock"
          else
            match u128Add order.amount order.resolver_fee with
            | .error e => .error e
            | .ok total_payout =>
              .ok (insertSorted order_id
                    { order with
                      is_claimed := true
                      preimage := some preimage } orders,
                   (caller, total_payout))

end Fusion

namespace Fusion

/-! ## Association-list lemmas -/

theorem charListLt_irrefl (l : List Char) : charListLt l l = false := by
  induction l with
  | nil => rfl
  | cons a as ih => simp [charListLt, ih]

theorem strLt_irrefl (s : String) : strLt s s = false := charListLt_irrefl s.data

theorem assocLookup_insertSorted_self {β : Type} (key : String) (v : β)
    (l : List (String × β)) :
    assocLookup (insertSorted key v l) key = some v := by
  induction l with
  | nil => simp [insertSorted, assocLookup]
  | cons hd tl ih =>
    obtain ⟨k, w⟩ := hd
    by_cases h1 : strLt key k = true
    · simp [insertSorted, h1, assocLookup]
    · by_cases h2 : key = k
      · simp [insertSorted, h1, h2, assocLookup, strLt_irrefl]
      · have h3 : ¬ k = key := fun h => h2 h.symm
        simp [insertSorted, h1, h2, assocLookup, h3, ih, strLt_irrefl]

theorem assocLookup_insertSorted_ne {β : Type} (key k : String) (v : β)
    (l : List (String × β)) (hne : k ≠ key) :
    assocLookup (insertSorted key v l) k = assocLookup l k := by
  have hkey : ¬ key = k := fun h => hne h.symm
  induction l with
  | nil => simp [insertSorted, assocLookup, hkey]
  | cons hd tl ih =>
    obtain ⟨k', w⟩ := hd
    by_cases h1 : strLt key k' = true
    · simp [insertSorted, h1, assocLookup, hkey]
    · by_cases h2 : key = k'
      · subst h2
        simp [insertSorted, h1, assocLookup, hkey]
      · by_cases h4 : k' = k
        · subst h4
          simp [insertSorted, h1, h2, assocLookup]
        · simp [insertSorted, h1, h2, assocLookup, h4, ih]

theorem mem_insertSorted {β : Type} (key : String) (v : β)
    (l : List (String × β)) (x : String × β)
    (hx : x ∈ insertSorted key v l) : x = (key, v) ∨ x ∈ l := by
  induction l with
  | nil =>
    simp only [insertSorted] at hx
    simp at hx
    exact Or.inl hx
  | cons hd tl ih =>
    obtain ⟨k', w⟩ := hd
    by_cases h1 : strLt key k' = true
    · rw [show insertSorted key v ((k', w) :: tl) = (key, v) :: (k', w) :: tl from by
        simp [insertSorted, h1]] at hx
      rcases List.mem_cons.mp hx with h | h
      · exact Or.inl h
      · exact Or.inr h
    · by_cases h2 : key = k'
      · rw [show insertSorted key v ((k', w) :: tl) = (key, v) :: tl from by
          simp [insertSorted, h1, h2, strLt_irrefl]] at hx
        rcases List.mem_cons.mp hx with h | h
        · exact Or.inl h
        · exact Or.inr (List.mem_cons_of_mem _ h)
      · rw [show insertSorted key v ((k', w) :: tl) = (k', w) :: insertSorted key v tl from by
          simp [insertSorted, h1, h2]] at hx
        rcases List.mem_cons.mp hx with h | h
        · exact Or.inr (by simp [h])
        · rcases ih h with h' | h'
          · exact Or.inl h'
          · exact Or.inr (List.mem_cons_of_mem _ h')

theorem assocLookup_mem {β : Type} (l : List (String × β)) (k : String) (v : β)
    (h : assocLookup l k = some v) : (k, v) ∈ l := by
  induction l with
  | nil => simp [assocLookup] at h
  | cons hd tl ih =>
    obtain ⟨k', w⟩ := hd
    by_cases h1 : k' = k
    · simp [assocLookup, h1] at h
      subst h1
      simp [h]
    · simp [assocLookup, h1] at h
      exact List.mem_cons_of_mem _ (ih h)

/-! ## The claim/refund status invariant machinery -/

/-- One-way transition shape of a single order's status under one call. -/
def StatusStep (o o' : FusionPlusOrder) : Prop :=
  o'.status = o.status ∨
    ((o.status = .Pending ∨ o.status = .Matched) ∧
     (o'.status = .Claimed ∨ o'.status = .Refunded))

/-- Per-order invariant: preimage present iff claimed, and any present
preimage hashes to the hashlock. -/
def orderInv (o : FusionPlusOrder) : Prop :=
  (o.preimage.isSome = true ↔ o.status = .Claimed) ∧
  ∀ p, o.preimage = some p → validate_preimage p o.hashlock = true

def storageInv (s : Storage) : Prop :=
  ∀ k o, (k, o) ∈ s.orders → orderInv o

end Fusion

namespace Fusion

/-! ## Characterizations of successful calls -/

theorem addResolver_ok (s : Storage) (info : MessageInfo) (resolver : String)
    (s' : Storage) (r : ResponseC)
    (h : addResolver s info resolver = .ok (s', r)) :
    s'.orders = s.orders ∧ s'.config = s.config := by
  unfold addResolver at h
  split at h
  · exact absurd h (by simp)
  · simp only [Except.ok.injEq, Prod.mk.injEq] at h
    obtain ⟨hs, _⟩ := h
    subst hs
    exact ⟨rfl, rfl⟩

theorem removeResolver_ok (s : Storage) (info : MessageInfo) (resolver : String)
    (s' : Storage) (r : ResponseC)
    (h : removeResolver s info resolver = .ok (s', r)) :
    s'.orders = s.orders ∧ s'.config = s.config := by
  unfold removeResolver at h
  split at h
  · exact absurd h (by simp)
  · simp only [Except.ok.injEq, Prod.mk.injEq] at h
    obtain ⟨hs, _⟩ := h
    subst hs
    exact ⟨rfl, rfl⟩

theorem updateConfig_ok (s : Storage) (info : MessageInfo)
    (admin : Option String) (bps : Option Nat) (s' : Storage) (r : ResponseC)
    (h : updateConfig s info admin bps = .ok (s', r)) :
    s'.orders = s.orders := by
  unfold updateConfig at h
  split at h
  · exact absurd h (by simp)
  · cases admin <;> cases bps <;> dsimp only at h
    · simp only [Except.ok.injEq, Prod.mk.injEq] at h
      obtain ⟨hs, _⟩ := h
      subst hs
      rfl
    · split at h
      · exact absurd h (by simp)
      · simp only [Except.ok.injEq, Prod.mk.injEq] at h
        obtain ⟨hs, _⟩ := h
        subst hs
        rfl
    · simp only [Except.ok.injEq, Prod.mk.injEq] at h
      obtain ⟨hs, _⟩ := h
      subst hs
      rfl
    · split at h
      · exact absurd h (by simp)
      · simp only [Except.ok.injEq, Prod.mk.injEq] at h
        obtain ⟨hs, _⟩ := h
        subst hs
        rfl

end Fusion

namespace Fusion

/-- The order stored by a successful `execute_fusion_order` call. -/
def mkExecOrder (s : Storage) (env : EnvC) (info : MessageInfo)
    (oh hl tls mk : String) (amt fee scid ts : Nat) : FusionPlusOrder :=
  { order_hash := oh, hashlock := hl, timelocks := tls, maker := mk,
    resolver := info.sender, amount := amt, resolver_fee := fee,
    safety_deposit := amt * s.config.min_safety_deposit_bps / 10000,
    status := .Matched, preimage := none, source_chain_id := scid,
    created_at := env.blockTime, timeout := env.blockTime + ts * 1000000000 }

theorem executeFusionOrder_ok (s : Storage) (env : EnvC) (info : MessageInfo)
    (oh hl tls mk : String) (amt fee scid ts : Nat) (s' : Storage) (r : ResponseC)
    (h : executeFusionOrder s env info oh hl tls mk amt fee scid ts = .ok (s', r)) :
    (assocLookup s.resolvers info.sender).getD false = true ∧
    assocLookup s.orders oh = none ∧
    byteLen hl = 64 ∧ hl.data.all isAsciiHexDigit = true ∧
    amt + fee + amt * s.config.min_safety_deposit_bps / 10000 ≤
      sentFunds info s.config.native_denom ∧
    s'.config = s.config ∧ s'.resolvers = s.resolvers ∧
    s'.orders = insertSorted oh (mkExecOrder s env info oh hl tls mk amt fee scid ts) s.orders := by
  simp only [executeFusionOrder] at h
  split at h
  · exact absurd h (by simp)
  · split at h
    · exact absurd h (by simp)
    · split at h
      · exact absurd h (by simp)
      · rename_i hauth hfresh hhl
        split at h
        · exact absurd h (by simp)
        · rename_i prod heq1
          split at h
          · exact absurd h (by simp)
          · rename_i dep heq2
            split at h
            · exact absurd h (by simp)
            · rename_i t heq3
              split at h
              · exact absurd h (by simp)
              · rename_i expected heq4
                split at h
                · exact absurd h (by simp)
                · rename_i hsent
                  have hprod : prod = amt * s.config.min_safety_deposit_bps := by
                    unfold checkedMul at heq1
                    split at heq1
                    · exact (Except.ok.injEq _ _ ▸ heq1).symm
                    · exact absurd heq1 (by simp)
                  have hdep : dep = prod / 10000 := by
                    unfold checkedDiv at heq2
                    split at heq2
                    · exact absurd heq2 (by simp)
                    · exact (Except.ok.injEq _ _ ▸ heq2).symm
                  have ht : t = amt + fee := by
                    unfold checkedAdd at heq3
                    split at heq3
                    · exact (Except.ok.injEq _ _ ▸ heq3).symm
                    · exact absurd heq3 (by simp)
                  have hexp : expected = t + dep := by
                    unfold checkedAdd at heq4
                    split at heq4
                    · exact (Except.ok.injEq _ _ ▸ heq4).symm
                    · exact absurd heq4 (by simp)
                  subst hprod
                  subst hdep
                  subst ht
                  subst hexp
                  rw [not_not] at hauth hhl
                  rw [not_lt] at hsent
                  have hfresh' : assocLookup s.orders oh = none := by
                    simpa using hfresh
                  simp only [Except.ok.injEq, Prod.mk.injEq] at h
                  obtain ⟨hs, _⟩ := h
                  subst hs
                  exact ⟨by simpa using hauth, hfresh', hhl.1, hhl.2, hsent, rfl, rfl, rfl⟩

end Fusion

namespace Fusion

theorem claimFusionOrder_ok (s : Storage) (env : EnvC) (info : MessageInfo)
    (oh p : String) (s' : Storage) (r : ResponseC)
    (h : claimFusionOrder s env info oh p = .ok (s', r)) :
    ∃ order, assocLookup s.orders oh = some order ∧
      info.sender = order.resolver ∧
      order.status = .Matched ∧
      env.blockTime < order.timeout ∧
      validate_preimage p order.hashlock = true ∧
      s'.config = s.config ∧ s'.resolvers = s.resolvers ∧
      s'.orders = insertSorted oh
        { order with status := OrderStatus.Claimed, preimage := some p } s.orders ∧
      r.messages =
        (if order.amount = 0 then [] else
          [BankSend.mk order.maker [(s.config.native_denom, order.amount)]]) ++
        (if order.resolver_fee = 0 then [] else
          [BankSend.mk order.resolver [(s.config.native_denom, order.resolver_fee)]]) ++
        (if order.safety_deposit = 0 then [] else
          [BankSend.mk order.resolver [(s.config.native_denom, order.safety_deposit)]]) ∧
      r.events = [EventC.mk "fusion_order_claimed"
        [("order_hash", oh), ("resolver", order.resolver),
         ("preimage", p), ("amount", toString order.amount)]] := by
  simp only [claimFusionOrder] at h
  split at h
  · exact absurd h (by simp)
  · rename_i order hlook
    split at h
    · exact absurd h (by simp)
    · split at h
      · exact absurd h (by simp)
      · split at h
        · exact absurd h (by simp)
        · split at h
          · exact absurd h (by simp)
          · rename_i hsender hstatus htime hpre
            rw [not_not] at hsender hstatus
            rw [not_le] at htime
            rw [not_not] at hpre
            simp only [Except.ok.injEq, Prod.mk.injEq] at h
            obtain ⟨hs, hr⟩ := h
            subst hs
            subst hr
            exact ⟨order, hlook, hsender, hstatus, htime, by simpa using hpre,
              rfl, rfl, rfl, rfl, rfl⟩

theorem refundOrder_ok (s : Storage) (env : EnvC) (info : MessageInfo)
    (oh : String) (s' : Storage) (r : ResponseC)
    (h : refundOrder s env info oh = .ok (s', r)) :
    ∃ order, assocLookup s.orders oh = some order ∧
      order.timeout ≤ env.blockTime ∧
      order.status ≠ .Claimed ∧ order.status ≠ .Refunded ∧
      (info.sender = order.maker ∨ info.sender = order.resolver) ∧
      s'.config = s.config ∧ s'.resolvers = s.resolvers ∧
      s'.orders = insertSorted oh
        { order with status := OrderStatus.Refunded } s.orders ∧
      r.messages = [BankSend.mk order.resolver
        [(s.config.native_denom,
          order.amount + order.resolver_fee + order.safety_deposit)]] := by
  simp only [refundOrder] at h
  split at h
  · exact absurd h (by simp)
  · rename_i order hlook
    split at h
    · exact absurd h (by simp)
    · split at h
      · exact absurd h (by simp)
      · split at h
        · exact absurd h (by simp)
        · split at h
          · exact absurd h (by simp)
          · rename_i htime hclaimed hrefunded hcaller
            rw [not_lt] at htime
            rw [not_and_or, not_not, not_not] at hcaller
            split at h
            · exact absurd h (by simp)
            · rename_i t heq1
              split at h
              · exact absurd h (by simp)
              · rename_i amtsum heq2
                have ht : t = order.amount + order.resolver_fee := by
                  unfold checkedAdd at heq1
                  split at heq1
                  · exact (Except.ok.injEq _ _ ▸ heq1).symm
                  · exact absurd heq1 (by simp)
                have hsum : amtsum = t + order.safety_deposit := by
                  unfold checkedAdd at heq2
                  split at heq2
                  · exact (Except.ok.injEq _ _ ▸ heq2).symm
                  · exact absurd heq2 (by simp)
                subst ht
                subst hsum
                simp only [Except.ok.injEq, Prod.mk.injEq] at h
                obtain ⟨hs, hr⟩ := h
                subst hs
                subst hr
                exact ⟨order, hlook, htime, hclaimed, hrefunded, hcaller,
                  rfl, rfl, rfl, rfl⟩

end Fusion

namespace Fusion

theorem instantiate_orders (info : MessageInfo) (msg : InstantiateMsg)
    (s : Storage) (r : ResponseC)
    (h : instantiate info msg = .ok (s, r)) : s.orders = [] := by
  simp only [instantiate] at h
  split at h
  · exact absurd h (by simp)
  · simp only [Except.ok.injEq, Prod.mk.injEq] at h
    obtain ⟨hs, _⟩ := h
    subst hs
    rfl

theorem execute_inv (s : Storage) (env : EnvC) (info : MessageInfo)
    (msg : ExecuteMsg) (s' : Storage) (r : ResponseC)
    (h : execute s env info msg = .ok (s', r))
    (hinv : storageInv s) : storageInv s' := by
  cases msg with
  | ExecuteFusionOrder oh hl tls mk amt fee scid ts =>
    obtain ⟨_, _, _, _, _, _, _, hord⟩ :=
      executeFusionOrder_ok s env info oh hl tls mk amt fee scid ts s' r h
    intro k o hmem
    rw [hord] at hmem
    rcases mem_insertSorted _ _ _ _ hmem with heq | hmem'
    · have ho : o = mkExecOrder s env info oh hl tls mk amt fee scid ts :=
        congrArg Prod.snd heq
      subst ho
      constructor
      · simp [mkExecOrder]
      · intro p hp
        simp [mkExecOrder] at hp
    · exact hinv k o hmem'
  | ClaimFusionOrder oh p =>
    obtain ⟨order, hlook, hsender, hstatus, htime, hpre, _, _, hord, _, _⟩ :=
      claimFusionOrder_ok s env info oh p s' r h
    intro k o hmem
    rw [hord] at hmem
    rcases mem_insertSorted _ _ _ _ hmem with heq | hmem'
    · have ho : o = { order with status := OrderStatus.Claimed, preimage := some p } :=
        congrArg Prod.snd heq
      subst ho
      constructor
      · simp
      · intro q hq
        simp only [Option.some.injEq] at hq
        subst hq
        exact hpre
    · exact hinv k o hmem'
  | RefundOrder oh =>
    obtain ⟨order, hlook, htime, hncl, hnref, hcaller, _, _, hord, _⟩ :=
      refundOrder_ok s env info oh s' r h
    intro k o hmem
    rw [hord] at hmem
    rcases mem_insertSorted _ _ _ _ hmem with heq | hmem'
    · have ho : o = { order with status := OrderStatus.Refunded } :=
        congrArg Prod.snd heq
      subst ho
      have hoi := hinv oh order (assocLookup_mem _ _ _ hlook)
      have hpre : order.preimage = none := by
        rcases hoi with ⟨hiff, _⟩
        cases hcase : order.preimage with
        | none => rfl
        | some q => exact absurd (hiff.mp (by simp [hcase])) hncl
      constructor
      · simp [orderInv, hpre]
      · intro q hq
        rw [show ({ order with status := OrderStatus.Refunded } :
            FusionPlusOrder).preimage = order.preimage from rfl, hpre] at hq
        simp at hq
    · exact hinv k o hmem'
  | AddResolver resolver =>
    obtain ⟨hord, _⟩ := addResolver_ok s info resolver s' r h
    intro k o hmem
    rw [hord] at hmem
    exact hinv k o hmem
  | RemoveResolver resolver =>
    obtain ⟨hord, _⟩ := removeResolver_ok s info resolver s' r h
    intro k o hmem
    rw [hord] at hmem
    exact hinv k o hmem
  | UpdateConfig a b =>
    have hord := updateConfig_ok s info a b s' r h
    intro k o hmem
    rw [hord] at hmem
    exact hinv k o hmem

theorem reachable_storageInv (s : Storage) (hs : Reachable s) : storageInv s := by
  induction hs with
  | init info msg s r h =>
    intro k o hmem
    rw [instantiate_orders info msg s r h] at hmem
    simp at hmem
  | step s env info msg s' r hreach hexec ih =>
    exact execute_inv s env info msg s' r hexec ih

theorem execute_statusStep (s : Storage) (env : EnvC) (info : MessageInfo)
    (msg : ExecuteMsg) (s' : Storage) (r : ResponseC)
    (h : execute s env info msg = .ok (s', r))
    (k : String) (o o' : FusionPlusOrder)
    (ho : assocLookup s.orders k = some o)
    (ho' : assocLookup s'.orders k = some o') :
    StatusStep o o' := by
  cases msg with
  | ExecuteFusionOrder oh hl tls mk amt fee scid ts =>
    obtain ⟨_, hfresh, _, _, _, _, _, hord⟩ :=
      executeFusionOrder_ok s env info oh hl tls mk amt fee scid ts s' r h
    by_cases hk : k = oh
    · subst hk
      rw [ho] at hfresh
      cases hfresh
    · rw [hord, assocLookup_insertSorted_ne _ _ _ _ hk, ho] at ho'
      injection ho' with ho''
      subst ho''
      exact Or.inl rfl
  | ClaimFusionOrder oh p =>
    obtain ⟨order, hlook, hsender, hstatus, htime, hpre, _, _, hord, _, _⟩ :=
      claimFusionOrder_ok s env info oh p s' r h
    by_cases hk : k = oh
    · subst hk
      rw [ho] at hlook
      injection hlook with hlook'
      subst hlook'
      rw [hord, assocLookup_insertSorted_self] at ho'
      injection ho' with ho''
      subst ho''
      exact Or.inr ⟨Or.inr hstatus, Or.inl rfl⟩
    · rw [hord, assocLookup_insertSorted_ne _ _ _ _ hk, ho] at ho'
      injection ho' with ho''
      subst ho''
      exact Or.inl rfl
  | RefundOrder oh =>
    obtain ⟨order, hlook, htime, hncl, hnref, hcaller, _, _, hord, _⟩ :=
      refundOrder_ok s env info oh s' r h
    by_cases hk : k = oh
    · subst hk
      rw [ho] at hlook
      injection hlook with hlook'
      subst hlook'
      rw [hord, assocLookup_insertSorted_self] at ho'
      injection ho' with ho''
      subst ho''
      refine Or.inr ⟨?_, Or.inr rfl⟩
      cases hstat : o.status with
      | Pending => exact Or.inl rfl
      | Matched => exact Or.inr rfl
      | Claimed => exact absurd hstat hncl
      | Refunded => exact absurd hstat hnref
    · rw [hord, assocLookup_insertSorted_ne _ _ _ _ hk, ho] at ho'
      injection ho' with ho''
      subst ho''
      exact Or.inl rfl
  | AddResolver resolver =>
    obtain ⟨hord, _⟩ := addResolver_ok s info resolver s' r h
    rw [hord, ho] at ho'
    injection ho' with ho''
    subst ho''
    exact Or.inl rfl
  | RemoveResolver resolver =>
    obtain ⟨hord, _⟩ := removeResolver_ok s info resolver s' r h
    rw [hord, ho] at ho'
    injection ho' with ho''
    subst ho''
    exact Or.inl rfl
  | UpdateConfig a b =>
    have hord := updateConfig_ok s info a b s' r h
    rw [hord, ho] at ho'
    injection ho' with ho''
    subst ho''
    exact Or.inl rfl

end Fusion

namespace Fusion

/-! ## Error-path and full-run lemmas for the Cosmos entry points -/

theorem claimFusionOrder_invalidStatus (s : Storage) (env : EnvC)
    (info : MessageInfo) (oh p : String) (order : FusionPlusOrder)
    (hlook : assocLookup s.orders oh = some order)
    (hsender : info.sender = order.resolver)
    (hstatus : order.status ≠ .Matched) :
    claimFusionOrder s env info oh p =
      .error (.InvalidOrderStatus (statusDebug order.status)) := by
  simp only [claimFusionOrder, hlook]
  rw [if_neg (by simp [hsender]), if_pos hstatus]

theorem claimFusionOrder_expired (s : Storage) (env : EnvC)
    (info : MessageInfo) (oh p : String) (order : FusionPlusOrder)
    (hlook : assocLookup s.orders oh = some order)
    (hsender : info.sender = order.resolver)
    (hstatus : order.status = .Matched)
    (htime : order.timeout ≤ env.blockTime) :
    claimFusionOrder s env info oh p = .error .TimelockExpired := by
  simp only [claimFusionOrder, hlook]
  rw [if_neg (by simp [hsender]), if_neg (by simp [hstatus]), if_pos htime]

theorem claimFusionOrder_eq (s : Storage) (env : EnvC)
    (info : MessageInfo) (oh p : String) (order : FusionPlusOrder)
    (hlook : assocLookup s.orders oh = some order)
    (hsender : info.sender = order.resolver)
    (hstatus : order.status = .Matched)
    (htime : env.blockTime < order.timeout) :
    claimFusionOrder s env info oh p =
      if validate_preimage p order.hashlock then
        .ok ({ s with
                 orders := insertSorted oh
                   { order with status := OrderStatus.Claimed, preimage := some p }
                   s.orders },
             { messages :=
                 (if order.amount = 0 then [] else
                   [BankSend.mk order.maker [(s.config.native_denom, order.amount)]]) ++
                 (if order.resolver_fee = 0 then [] else
                   [BankSend.mk order.resolver [(s.config.native_denom, order.resolver_fee)]]) ++
                 (if order.safety_deposit = 0 then [] else
                   [BankSend.mk order.resolver [(s.config.native_denom, order.safety_deposit)]]),
               events := [EventC.mk "fusion_order_claimed"
                 [("order_hash", oh), ("resolver", order.resolver),
                  ("preimage", p), ("amount", toString order.amount)]],
               attributes := [("method", "claim_fusion_order"), ("order_hash", oh)] })
      else .error .InvalidPreimage := by
  simp only [claimFusionOrder, hlook]
  rw [if_neg (by simp [hsender]), if_neg (by simp [hstatus]), if_neg (not_le.mpr htime)]
  by_cases hv : validate_preimage p order.hashlock
  · rw [if_neg (by simp [hv]), if_pos hv]
  · rw [if_pos (by simp [hv]), if_neg (by simp [hv])]

theorem refundOrder_notExpired (s : Storage) (env : EnvC)
    (info : MessageInfo) (oh : String) (order : FusionPlusOrder)
    (hlook : assocLookup s.orders oh = some order)
    (htime : env.blockTime < order.timeout) :
    refundOrder s env info oh = .error .TimelockNotExpired := by
  simp only [refundOrder, hlook]
  rw [if_pos htime]

theorem refundOrder_alreadyClaimed (s : Storage) (env : EnvC)
    (info : MessageInfo) (oh : String) (order : FusionPlusOrder)
    (hlook : assocLookup s.orders oh = some order)
    (htime : order.timeout ≤ env.blockTime)
    (hstatus : order.status = .Claimed) :
    refundOrder s env info oh = .error .OrderAlreadyClaimed := by
  simp only [refundOrder, hlook]
  rw [if_neg (not_lt.mpr htime), if_pos hstatus]

theorem refundOrder_alreadyRefunded (s : Storage) (env : EnvC)
    (info : MessageInfo) (oh : String) (order : FusionPlusOrder)
    (hlook : assocLookup s.orders oh = some order)
    (htime : order.timeout ≤ env.blockTime)
    (hstatus : order.status = .Refunded) :
    refundOrder s env info oh = .error .OrderAlreadyRefunded := by
  simp only [refundOrder, hlook]
  rw [if_neg (not_lt.mpr htime), if_neg (by simp [hstatus]), if_pos hstatus]

theorem refundOrder_overflow (s : Storage) (env : EnvC)
    (info : MessageInfo) (oh : String) (order : FusionPlusOrder)
    (hlook : assocLookup s.orders oh = some order)
    (htime : order.timeout ≤ env.blockTime)
    (hncl : order.status ≠ .Claimed) (hnref : order.status ≠ .Refunded)
    (hcaller : info.sender = order.maker ∨ info.sender = order.resolver)
    (htot : U128_MOD ≤ order.amount + order.resolver_fee + order.safety_deposit) :
    refundOrder s env info oh = .error .Overflow := by
  simp only [refundOrder, hlook]
  rw [if_neg (not_lt.mpr htime), if_neg hncl, if_neg hnref,
    if_neg (by rcases hcaller with h | h <;> simp [h])]
  by_cases hadd : order.amount + order.resolver_fee < U128_MOD
  · simp only [show checkedAdd order.amount order.resolver_fee =
        .ok (order.amount + order.resolver_fee) from by simp [checkedAdd, hadd],
      show checkedAdd (order.amount + order.resolver_fee) order.safety_deposit =
        .error .Overflow from by simp [checkedAdd, not_lt.mpr htot]]
  · simp only [show checkedAdd order.amount order.resolver_fee =
        .error .Overflow from by simp [checkedAdd, hadd]]

theorem executeFusionOrder_invalidHashlock (s : Storage) (env : EnvC)
    (info : MessageInfo) (oh hl tls mk : String) (amt fee scid ts : Nat)
    (hauth : (assocLookup s.resolvers info.sender).getD false = true)
    (hfresh : assocLookup s.orders oh = none)
    (hhl : ¬ (byteLen hl = 64 ∧ hl.data.all isAsciiHexDigit = true)) :
    executeFusionOrder s env info oh hl tls mk amt fee scid ts =
      .error .InvalidHashlock := by
  simp only [executeFusionOrder]
  rw [if_neg (by simp [hauth]), if_neg (by simp [hfresh]), if_pos (by simpa using hhl)]

theorem executeFusionOrder_overflow_mul (s : Storage) (env : EnvC)
    (info : MessageInfo) (oh hl tls mk : String) (amt fee scid ts : Nat)
    (hauth : (assocLookup s.resolvers info.sender).getD false = true)
    (hfresh : assocLookup s.orders oh = none)
    (hhl : byteLen hl = 64 ∧ hl.data.all isAsciiHexDigit = true)
    (hmul : U128_MOD ≤ amt * s.config.min_safety_deposit_bps) :
    executeFusionOrder s env info oh hl tls mk amt fee scid ts =
      .error .Overflow := by
  simp only [executeFusionOrder]
  rw [if_neg (by simp [hauth]), if_neg (by simp [hfresh]),
    if_neg (by simp [hhl.1, hhl.2])]
  simp only [show checkedMul amt s.config.min_safety_deposit_bps =
      .error .Overflow from by simp [checkedMul, not_lt.mpr hmul]]

theorem executeFusionOrder_overflow_add (s : Storage) (env : EnvC)
    (info : MessageInfo) (oh hl tls mk : String) (amt fee scid ts : Nat)
    (hauth : (assocLookup s.resolvers info.sender).getD false = true)
    (hfresh : assocLookup s.orders oh = none)
    (hhl : byteLen hl = 64 ∧ hl.data.all isAsciiHexDigit = true)
    (hmul : amt * s.config.min_safety_deposit_bps < U128_MOD)
    (htot : U128_MOD ≤ amt + fee + amt * s.config.min_safety_deposit_bps / 10000) :
    executeFusionOrder s env info oh hl tls mk amt fee scid ts =
      .error .Overflow := by
  simp only [executeFusionOrder]
  rw [if_neg (by simp [hauth]), if_neg (by simp [hfresh]),
    if_neg (by simp [hhl.1, hhl.2])]
  simp only [show checkedMul amt s.config.min_safety_deposit_bps =
      .ok (amt * s.config.min_safety_deposit_bps) from by simp [checkedMul, hmul],
    show checkedDiv (amt * s.config.min_safety_deposit_bps) 10000 =
      .ok (amt * s.config.min_safety_deposit_bps / 10000) from by simp [checkedDiv]]
  by_cases hadd : amt + fee < U128_MOD
  · simp only [show checkedAdd amt fee = .ok (amt + fee) from by simp [checkedAdd, hadd],
      show checkedAdd (amt + fee) (amt * s.config.min_safety_deposit_bps / 10000) =
        .error .Overflow from by simp [checkedAdd, not_lt.mpr htot]]
  · simp only [show checkedAdd amt fee = .error .Overflow from by simp [checkedAdd, hadd]]

theorem executeFusionOrder_eq (s : Storage) (env : EnvC)
    (info : MessageInfo) (oh hl tls mk : String) (amt fee scid ts : Nat)
    (hauth : (assocLookup s.resolvers info.sender).getD false = true)
    (hfresh : assocLookup s.orders oh = none)
    (hhl : byteLen hl = 64 ∧ hl.data.all isAsciiHexDigit = true)
    (hmul : amt * s.config.min_safety_deposit_bps < U128_MOD)
    (hadd1 : amt + fee < U128_MOD)
    (hadd2 : amt + fee + amt * s.config.min_safety_deposit_bps / 10000 < U128_MOD) :
    executeFusionOrder s env info oh hl tls mk amt fee scid ts =
      if sentFunds info s.config.native_denom <
          amt + fee + amt * s.config.min_safety_deposit_bps / 10000 then
        .error (.InsufficientSafetyDeposit
          (amt + fee + amt * s.config.min_safety_deposit_bps / 10000)
          (sentFunds info s.config.native_denom))
      else
        .ok ({ s with
                 orders := insertSorted oh
                   (mkExecOrder s env info oh hl tls mk amt fee scid ts) s.orders },
             { messages := [],
               events := [EventC.mk "fusion_order_created"
                 [("order_hash", oh), ("maker", mk), ("resolver", info.sender),
                  ("amount", toString amt), ("source_chain_id", toString scid)]],
               attributes := [("method", "execute_fusion_order"),
                              ("order_hash", oh)] }) := by
  simp only [executeFusionOrder]
  rw [if_neg (by simp [hauth]), if_neg (by simp [hfresh]),
    if_neg (by simp [hhl.1, hhl.2])]
  simp only [show checkedMul amt s.config.min_safety_deposit_bps =
      .ok (amt * s.config.min_safety_deposit_bps) from by simp [checkedMul, hmul],
    show checkedDiv (amt * s.config.min_safety_deposit_bps) 10000 =
      .ok (amt * s.config.min_safety_deposit_bps / 10000) from by simp [checkedDiv],
    show checkedAdd amt fee = .ok (amt + fee) from by simp [checkedAdd, hadd1],
    show checkedAdd (amt + fee) (amt * s.config.min_safety_deposit_bps / 10000) =
      .ok (amt + fee + amt * s.config.min_safety_deposit_bps / 10000) from by
      simp [checkedAdd, hadd2]]
  rfl

end Fusion

namespace Fusion

/-! ## Concrete fixtures used by witnesses and counterexamples -/

def testConfig : Config :=
  { admin := "admin1", min_safety_deposit_bps := 500, native_denom := "untrn" }

def helloHashlock : String :=
  "2cf24dba5fb0a30e26e83b2ac5b9e29e1b161e5c1fa7425e73043362938b9824"

def hash64a : String := String.mk (List.replicate 64 'a')

def zeros64 : String := String.mk (List.replicate 64 '0')

def zzz64 : String := String.mk (List.replicate 64 'z')

def matchedOrder : FusionPlusOrder :=
  { order_hash := "order1", hashlock := helloHashlock, timelocks := "0",
    maker := "maker1", resolver := "resolver1", amount := 1000000,
    resolver_fee := 50000, safety_deposit := 50000, status := .Matched,
    preimage := none, source_chain_id := 1, created_at := 1000, timeout := 5000 }

def claimedOrder : FusionPlusOrder :=
  { matchedOrder with status := OrderStatus.Claimed, preimage := some "hello" }

def refundedOrder : FusionPlusOrder :=
  { matchedOrder with status := OrderStatus.Refunded }

def storeMatched : Storage :=
  { config := testConfig, orders := [("order1", matchedOrder)],
    resolvers := [("resolver1", true)] }

def storeClaimed : Storage :=
  { config := testConfig, orders := [("order1", claimedOrder)],
    resolvers := [("resolver1", true)] }

def storeRefunded : Storage :=
  { config := testConfig, orders := [("order1", refundedOrder)],
    resolvers := [("resolver1", true)] }

def storeEmpty : Storage :=
  { config := testConfig, orders := [], resolvers := [("resolver1", true)] }

def envEarly : EnvC := { blockTime := 2000 }

def envLate : EnvC := { blockTime := 5000 }

def infoResolver : MessageInfo := { sender := "resolver1", funds := [] }

def infoMaker : MessageInfo := { sender := "maker1", funds := [] }

def infoFunds (n : Nat) : MessageInfo :=
  { sender := "resolver1", funds := [("untrn", n)] }

end Fusion

namespace Fusion

/-! ## Fixtures for the reachable-state witness -/

def instStore : Storage :=
  { config := { admin := "resolver1", min_safety_deposit_bps := 500,
                native_denom := "untrn" },
    orders := [], resolvers := [("resolver1", true)] }

def instResp : ResponseC :=
  { messages := [], events := [],
    attributes := [("method", "instantiate"), ("admin", "resolver1"),
                   ("min_safety_deposit_bps", "500"),
                   ("initial_resolver", "resolver1")] }

def execOrder1 : FusionPlusOrder :=
  { order_hash := "order1", hashlock := helloHashlock, timelocks := "0",
    maker := "maker1", resolver := "resolver1", amount := 1000000,
    resolver_fee := 50000, safety_deposit := 50000, status := .Matched,
    preimage := none, source_chain_id := 1, created_at := 2000,
    timeout := 3600000002000 }

def execStore1 : Storage :=
  { config := instStore.config, orders := [("order1", execOrder1)],
    resolvers := [("resolver1", true)] }

def execResp1 : ResponseC :=
  { messages := [],
    events := [EventC.mk "fusion_order_created"
      [("order_hash", "order1"), ("maker", "maker1"), ("resolver", "resolver1"),
       ("amount", "1000000"), ("source_chain_id", "1")]],
    attributes := [("method", "execute_fusion_order"), ("order_hash", "order1")] }

def claimOrder1 : FusionPlusOrder :=
  { execOrder1 with status := OrderStatus.Claimed, preimage := some "hello" }

def claimStore1 : Storage :=
  { config := instStore.config, orders := [("order1", claimOrder1)],
    resolvers := [("resolver1", true)] }

def claimResp1 : ResponseC :=
  { messages := [BankSend.mk "maker1" [("untrn", 1000000)],
                 BankSend.mk "resolver1" [("untrn", 50000)],
                 BankSend.mk "resolver1" [("untrn", 50000)]],
    events := [EventC.mk "fusion_order_claimed"
      [("order_hash", "order1"), ("resolver", "resolver1"),
       ("preimage", "hello"), ("amount", "1000000")]],
    attributes := [("method", "claim_fusion_order"), ("order_hash", "order1")] }

def refundResp : ResponseC :=
  { messages := [BankSend.mk "resolver1" [("untrn", 1100000)]],
    events := [EventC.mk "fusion_order_refunded"
      [("order_hash", "order1"), ("refunded_to", "resolver1"),
       ("amount", "1100000"), ("reason", "timeout")]],
    attributes := [("method", "refund_order"), ("order_hash", "order1")] }

instance exceptDecEq {ε α : Type} [DecidableEq ε] [DecidableEq α] :
    DecidableEq (Except ε α) := fun x y =>
  match x, y with
  | .error a, .error b =>
    if h : a = b then isTrue (by rw [h])
    else isFalse (fun hc => h (Except.error.inj hc))
  | .ok a, .ok b =>
    if h : a = b then isTrue (by rw [h])
    else isFalse (fun hc => h (Except.ok.inj hc))
  | .error _, .ok _ => isFalse (fun hc => Except.noConfusion hc)
  | .ok _, .error _ => isFalse (fun hc => Except.noConfusion hc)

/-! ## Claim C1 -/

/-- Claim C1, counterexample to the claim as stated: a refund attempt on an
order that is already Claimed, made strictly before the timeout, fails with
`TimelockNotExpired`, which is none of the conflict errors the claim
names (the timelock check runs before the status check in
`refund_order`). -/
theorem C1_counterexample :
    refundOrder storeClaimed envEarly infoResolver "order1" =
      .error .TimelockNotExpired ∧
    ContractError.TimelockNotExpired ≠ .OrderAlreadyClaimed ∧
    ContractError.TimelockNotExpired ≠ .OrderAlreadyRefunded ∧
    ContractError.TimelockNotExpired ≠ .InvalidOrderStatus "Claimed" := by
  exact ⟨by decide, by decide, by decide, by decide⟩

/-- Claim C1 (amended): order status moves one-way from Pending/Matched to
exactly one terminal state under every execute call; a claim attempt by the
resolver on a terminal order fails with `InvalidOrderStatus`; a refund
attempt on a terminal order fails with `OrderAlreadyClaimed` or
`OrderAlreadyRefunded` once the timeout has passed, and with
`TimelockNotExpired` strictly before the timeout.  Every failing attempt is
an error, which commits no state change and no bank message, so no order is
paid out twice. -/
theorem C1_amended :
    (∀ s env info msg s' r k o o',
       execute s env info msg = .ok (s', r) →
       assocLookup s.orders k = some o →
       assocLookup s'.orders k = some o' →
       StatusStep o o') ∧
    (∀ s env info oh p order,
       assocLookup s.orders oh = some order →
       info.sender = order.resolver →
       (order.status = .Claimed ∨ order.status = .Refunded) →
       claimFusionOrder s env info oh p =
         .error (.InvalidOrderStatus (statusDebug order.status))) ∧
    (∀ s env info oh order,
       assocLookup s.orders oh = some order →
       order.status = .Claimed → order.timeout ≤ env.blockTime →
       refundOrder s env info oh = .error .OrderAlreadyClaimed) ∧
    (∀ s env info oh order,
       assocLookup s.orders oh = some order →
       order.status = .Refunded → order.timeout ≤ env.blockTime →
       refundOrder s env info oh = .error .OrderAlreadyRefunded) ∧
    (∀ s env info oh order,
       assocLookup s.orders oh = some order →
       env.blockTime < order.timeout →
       refundOrder s env info oh = .error .TimelockNotExpired) := by
  refine ⟨?_, ?_, ?_, ?_, ?_⟩
  · intro s env info msg s' r k o o' h ho ho'
    exact execute_statusStep s env info msg s' r h k o o' ho ho'
  · intro s env info oh p order hlook hsender hterm
    refine claimFusionOrder_invalidStatus s env info oh p order hlook hsender ?_
    rcases hterm with h | h <;> simp [h]
  · intro s env info oh order hlook hstatus htime
    exact refundOrder_alreadyClaimed s env info oh order hlook htime hstatus
  · intro s env info oh order hlook hstatus htime
    exact refundOrder_alreadyRefunded s env info oh order hlook htime hstatus
  · intro s env info oh order hlook htime
    exact refundOrder_notExpired s env info oh order hlook htime

/-- Claim C1 witness: the amended statement applied at concrete inputs. -/
theorem C1_witness :
    StatusStep matchedOrder refundedOrder ∧
    claimFusionOrder storeClaimed envEarly infoResolver "order1" "x" =
      .error (.InvalidOrderStatus "Claimed") ∧
    refundOrder storeClaimed envLate infoResolver "order1" =
      .error .OrderAlreadyClaimed ∧
    refundOrder storeRefunded envLate infoResolver "order1" =
      .error .OrderAlreadyRefunded ∧
    refundOrder storeMatched envEarly infoResolver "order1" =
      .error .TimelockNotExpired := by
  have hexec : execute storeMatched envLate infoMaker (.RefundOrder "order1") =
      .ok (storeRefunded, refundResp) := by decide
  refine ⟨?_, ?_, ?_, ?_, ?_⟩
  · exact C1_amended.1 storeMatched envLate infoMaker (.RefundOrder "order1")
      storeRefunded refundResp "order1" matchedOrder refundedOrder hexec
      (by decide) (by decide)
  · exact C1_amended.2.1 storeClaimed envEarly infoResolver "order1" "x"
      claimedOrder (by decide) (by decide) (Or.inl (by decide))
  · exact C1_amended.2.2.1 storeClaimed envLate infoResolver "order1"
      claimedOrder (by decide) (by decide) (by decide)
  · exact C1_amended.2.2.2.1 storeRefunded envLate infoResolver "order1"
      refundedOrder (by decide) (by decide) (by decide)
  · exact C1_amended.2.2.2.2 storeMatched envEarly infoResolver "order1"
      matchedOrder (by decide) (by decide)

end Fusion

namespace Fusion

/-! ## Claim C2 -/

def nearCexOrder : NearFusionOrder :=
  { order_hash := "n1", hashlock := hexEncode (sha256 (strBytes zeros64)),
    timelocks := 0, maker := "maker1", resolver := "resolver1",
    amount := 10, resolver_fee := 1, safety_deposit := 0,
    status := .Matched, preimage := none, source_chain_id := 1 }

def nearCexState : NearFusionState :=
  { orders := [("n1", nearCexOrder)], resolvers := [("resolver1", true)],
    owner := "owner1", min_safety_deposit_bps := 500 }

def nearOkOrder : NearFusionOrder :=
  { nearCexOrder with
    order_hash := "n2"
    hashlock := hexEncode (sha256 (List.replicate 32 0)) }

def nearOkState : NearFusionState :=
  { nearCexState with orders := [("n2", nearOkOrder)] }

/-- Claim C2, counterexample to the claim as stated: in the NEAR variant a
Matched order whose hashlock equals the (case-insensitive) hex of
sha256 of the preimage string — exactly the success condition the claim
states — is rejected, because the contract hex-decodes the preimage and
hashes the decoded bytes instead of the string. -/
theorem C2_counterexample :
    asciiLower (hexEncode (sha256 (strBytes zeros64))) =
      asciiLower nearCexOrder.hashlock ∧
    nearCexOrder.status = .Matched ∧
    nearClaimFusionOrder nearCexState "resolver1" "n1" zeros64 =
      .error "Preimage doesn't match hashlock" := by
  exact ⟨rfl, rfl, by decide⟩

/-- Claim C2 (amended): in the Cosmos variant, for a Matched order claimed
by its resolver strictly before the timeout, the claim succeeds iff the hex
encoding of sha256 of the preimage string equals the hashlock up to ASCII
case, and any other preimage fails with `InvalidPreimage` (the error
commits no state change).  In the NEAR variant the claim succeeds iff the
preimage is 64 bytes of hex whose decoded bytes hash to the hashlock
byte-for-byte (case-sensitively). -/
theorem C2_amended :
    (∀ p hashlock, validate_preimage p hashlock = true ↔
       asciiLower (hexEncode (sha256 (strBytes p))) = asciiLower hashlock) ∧
    (∀ s env info oh p order,
       assocLookup s.orders oh = some order →
       info.sender = order.resolver →
       order.status = .Matched →
       env.blockTime < order.timeout →
       (validate_preimage p order.hashlock = true →
          ∃ s' r, claimFusionOrder s env info oh p = .ok (s', r)) ∧
       (validate_preimage p order.hashlock = false →
          claimFusionOrder s env info oh p = .error .InvalidPreimage)) ∧
    (∀ st caller oh p order,
       assocLookup st.orders oh = some order →
       caller = order.resolver →
       order.status = .Matched →
       ((∃ st', nearClaimFusionOrder st caller oh p = .ok st') ↔
        (byteLen p = 64 ∧ ∃ bs, hexDecode p = some bs ∧
           hexEncode (sha256 bs) = order.hashlock))) := by
  refine ⟨?_, ?_, ?_⟩
  · intro p hashlock
    simp [validate_preimage]
  · intro s env info oh p order hlook hsender hstatus htime
    have heq := claimFusionOrder_eq s env info oh p order hlook hsender hstatus htime
    constructor
    · intro hv
      rw [heq, if_pos hv]
      exact ⟨_, _, rfl⟩
    · intro hv
      rw [heq, if_neg (by simp [hv])]
  · intro st caller oh p order hlook hsender hstatus
    simp only [nearClaimFusionOrder, hlook]
    rw [if_neg (by simp [hsender]), if_neg (by simp [hstatus])]
    by_cases hlen : byteLen p = 64
    · rw [if_neg (by simp [hlen])]
      cases hdec : hexDecode p with
      | none => simp [hlen, hdec]
      | some bs =>
        by_cases hmatch : hexEncode (sha256 bs) = order.hashlock
        · simp [hlen, hdec, hmatch]
        · simp [hlen, hdec, hmatch]
    · rw [if_pos hlen]
      simp [hlen]

/-- Claim C2 witness: the amended statement applied at concrete inputs. -/
theorem C2_witness :
    (∃ s' r, claimFusionOrder storeMatched envEarly infoResolver "order1" "hello" =
       .ok (s', r)) ∧
    claimFusionOrder storeMatched envEarly infoResolver "order1" "wrong" =
      .error .InvalidPreimage ∧
    (∃ st', nearClaimFusionOrder nearOkState "resolver1" "n2" zeros64 = .ok st') := by
  refine ⟨?_, ?_, ?_⟩
  · exact (C2_amended.2.1 storeMatched envEarly infoResolver "order1" "hello"
      matchedOrder (by decide) (by decide) (by decide) (by decide)).1 (by decide)
  · exact (C2_amended.2.1 storeMatched envEarly infoResolver "order1" "wrong"
      matchedOrder (by decide) (by decide) (by decide) (by decide)).2 (by decide)
  · exact (C2_amended.2.2 nearOkState "resolver1" "n2" zeros64 nearOkOrder
      (by decide) rfl (by decide)).mpr
      ⟨by decide, List.replicate 32 0, by decide, rfl⟩

end Fusion

namespace Fusion

/-! ## Claim C3 -/

/-- Claim C3, counterexample to the claim as stated: claiming an
already-Claimed order at a time at or after its timeout, by the right
caller and with the correct preimage, fails with `InvalidOrderStatus`
rather than `TimelockExpired`, because the status check precedes the
timelock check in `claim_fusion_order`. -/
theorem C3_counterexample :
    claimedOrder.timeout ≤ envLate.blockTime ∧
    claimFusionOrder storeClaimed envLate infoResolver "order1" "hello" =
      .error (.InvalidOrderStatus "Claimed") ∧
    ContractError.InvalidOrderStatus "Claimed" ≠ .TimelockExpired := by
  exact ⟨by decide, by decide, by decide⟩

/-- Claim C3 (amended): for a Matched order claimed by its resolver, a
claim at or after the timeout always fails with `TimelockExpired`
regardless of the preimage; refunding strictly before the timeout always
fails with `TimelockNotExpired` for every order, caller and status; a
claim can only succeed strictly before the timeout and a refund only at or
after it. -/
theorem C3_amended :
    (∀ s env info oh p order,
       assocLookup s.orders oh = some order →
       info.sender = order.resolver →
       order.status = .Matched →
       order.timeout ≤ env.blockTime →
       claimFusionOrder s env info oh p = .error .TimelockExpired) ∧
    (∀ s env info oh order,
       assocLookup s.orders oh = some order →
       env.blockTime < order.timeout →
       refundOrder s env info oh = .error .TimelockNotExpired) ∧
    (∀ s env info oh p s' r,
       claimFusionOrder s env info oh p = .ok (s', r) →
       ∃ order, assocLookup s.orders oh = some order ∧
         env.blockTime < order.timeout) ∧
    (∀ s env info oh s' r,
       refundOrder s env info oh = .ok (s', r) →
       ∃ order, assocLookup s.orders oh = some order ∧
         order.timeout ≤ env.blockTime) := by
  refine ⟨?_, ?_, ?_, ?_⟩
  · intro s env info oh p order hlook hsender hstatus htime
    exact claimFusionOrder_expired s env info oh p order hlook hsender hstatus htime
  · intro s env info oh order hlook htime
    exact refundOrder_notExpired s env info oh order hlook htime
  · intro s env info oh p s' r h
    obtain ⟨order, hlook, _, _, htime, _⟩ := claimFusionOrder_ok s env info oh p s' r h
    exact ⟨order, hlook, htime⟩
  · intro s env info oh s' r h
    obtain ⟨order, hlook, htime, _⟩ := refundOrder_ok s env info oh s' r h
    exact ⟨order, hlook, htime⟩

/-- Claim C3 witness: the amended statement applied at concrete inputs. -/
theorem C3_witness :
    claimFusionOrder storeMatched envLate infoResolver "order1" "hello" =
      .error .TimelockExpired ∧
    refundOrder storeMatched envEarly infoMaker "order1" =
      .error .TimelockNotExpired ∧
    (∃ order, assocLookup storeMatched.orders "order1" = some order ∧
       envEarly.blockTime < order.timeout) ∧
    (∃ order, assocLookup storeMatched.orders "order1" = some order ∧
       order.timeout ≤ envLate.blockTime) := by
  have hclaim : claimFusionOrder storeMatched envEarly infoResolver "order1" "hello" =
      .ok (storeClaimed, claimResp1) := by decide
  have hrefund : refundOrder storeMatched envLate infoMaker "order1" =
      .ok (storeRefunded, refundResp) := by decide
  refine ⟨?_, ?_, ?_, ?_⟩
  · exact C3_amended.1 storeMatched envLate infoResolver "order1" "hello"
      matchedOrder (by decide) (by decide) (by decide) (by decide)
  · exact C3_amended.2.1 storeMatched envEarly infoMaker "order1"
      matchedOrder (by decide) (by decide)
  · exact C3_amended.2.2.1 storeMatched envEarly infoResolver "order1" "hello"
      storeClaimed claimResp1 hclaim
  · exact C3_amended.2.2.2 storeMatched envLate infoMaker "order1"
      storeRefunded refundResp hrefund

end Fusion

namespace Fusion

/-! ## Characterizations of the NEAR entry points cited by the claims -/

theorem nearExecuteFusionOrder_ok (st : NearFusionState) (dep : Nat)
    (oh hl mk rsv : String) (amt fee tls scid : Nat)
    (st' : NearFusionState) (o : NearFusionOrder)
    (h : nearExecuteFusionOrder st dep oh hl mk rsv amt fee tls scid = .ok (st', o)) :
    o.safety_deposit = amt * st.min_safety_deposit_bps / 10000 ∧
    amt + fee + o.safety_deposit ≤ dep ∧
    byteLen hl = 64 := by
  simp only [nearExecuteFusionOrder] at h
  split at h
  · exact absurd h (by simp)
  · split at h
    · exact absurd h (by simp)
    · split at h
      · exact absurd h (by simp)
      · rename_i total heq1
        split at h
        · exact absurd h (by simp)
        · rename_i hdep1
          split at h
          · exact absurd h (by simp)
          · rename_i prod heq2
            split at h
            · exact absurd h (by simp)
            · rename_i needed heq3
              split at h
              · exact absurd h (by simp)
              · split at h
                · exact absurd h (by simp)
                · rename_i hdep2 hlen
                  have htotal : total = amt + fee := by
                    unfold u128Add at heq1
                    split at heq1
                    · exact (Except.ok.injEq _ _ ▸ heq1).symm
                    · exact absurd heq1 (by simp)
                  subst htotal
                  have hprod : prod = amt * st.min_safety_deposit_bps := by
                    unfold u128Mul at heq2
                    split at heq2
                    · exact (Except.ok.injEq _ _ ▸ heq2).symm
                    · exact absurd heq2 (by simp)
                  subst hprod
                  have hneeded : needed =
                      amt + fee + amt * st.min_safety_deposit_bps / 10000 := by
                    unfold u128Add at heq3
                    split at heq3
                    · exact (Except.ok.injEq _ _ ▸ heq3).symm
                    · exact absurd heq3 (by simp)
                  subst hneeded
                  rw [not_lt] at hdep2
                  rw [not_not] at hlen
                  simp only [Except.ok.injEq, Prod.mk.injEq] at h
                  obtain ⟨_, ho⟩ := h
                  subst ho
                  exact ⟨rfl, hdep2, hlen⟩

theorem nearExecuteFusionOrder_insufficientSafety (st : NearFusionState)
    (dep : Nat) (oh hl mk rsv : String) (amt fee tls scid : Nat)
    (hauth : (assocLookup st.resolvers rsv).getD false = true)
    (hfresh : assocLookup st.orders oh = none)
    (hadd1 : amt + fee < U128_MOD)
    (hdep1 : amt + fee ≤ dep)
    (hmul : amt * st.min_safety_deposit_bps < U128_MOD)
    (hadd2 : amt + fee + amt * st.min_safety_deposit_bps / 10000 < U128_MOD)
    (hshort : dep < amt + fee + amt * st.min_safety_deposit_bps / 10000) :
    nearExecuteFusionOrder st dep oh hl mk rsv amt fee tls scid =
      .error "Insufficient safety deposit" := by
  simp only [nearExecuteFusionOrder]
  rw [if_neg (by simp [hauth]), if_neg (by simp [hfresh])]
  simp only [show u128Add amt fee = .ok (amt + fee) from by simp [u128Add, hadd1]]
  rw [if_neg (not_lt.mpr hdep1)]
  simp only [show u128Mul amt st.min_safety_deposit_bps =
      .ok (amt * st.min_safety_deposit_bps) from by simp [u128Mul, hmul],
    show u128Add (amt + fee) (amt * st.min_safety_deposit_bps / 10000) =
      .ok (amt + fee + amt * st.min_safety_deposit_bps / 10000) from by
      simp [u128Add, hadd2]]
  rw [if_pos hshort]

theorem matchOrder_ok (orders : List (String × HTLCOrder))
    (resolvers : List (String × Bool)) (caller : String)
    (dep height : Nat) (oid : String)
    (orders' : List (String × HTLCOrder)) (o' : HTLCOrder)
    (h : matchOrder orders resolvers caller dep height oid = .ok (orders', o')) :
    ∃ order, assocLookup orders oid = some order ∧
      o' = { order with resolver := some caller, safety_deposit := dep } ∧
      order.amount * 10 / 100 ≤ dep ∧
      orders' = insertSorted oid o' orders := by
  simp only [matchOrder] at h
  split at h
  · exact absurd h (by simp)
  · split at h
    · exact absurd h (by simp)
    · rename_i order hlook
      split at h
      · exact absurd h (by simp)
      · split at h
        · exact absurd h (by simp)
        · split at h
          · exact absurd h (by simp)
          · split at h
            · exact absurd h (by simp)
            · rename_i prod heq
              split at h
              · exact absurd h (by simp)
              · rename_i hdep
                have hprod : prod = order.amount * 10 := by
                  unfold u128Mul at heq
                  split at heq
                  · exact (Except.ok.injEq _ _ ▸ heq).symm
                  · exact absurd heq (by simp)
                subst hprod
                rw [not_lt] at hdep
                simp only [Except.ok.injEq, Prod.mk.injEq] at h
                obtain ⟨hords, ho⟩ := h
                subst ho
                subst hords
                exact ⟨order, hlook, rfl, hdep, rfl⟩

theorem matchOrder_insufficient (orders : List (String × HTLCOrder))
    (resolvers : List (String × Bool)) (caller : String)
    (dep height : Nat) (oid : String) (order : HTLCOrder)
    (hauth : (assocLookup resolvers caller).getD false = true)
    (hlook : assocLookup orders oid = some order)
    (hunmatched : order.resolver = none)
    (hclaimed : order.is_claimed = false) (hrefunded : order.is_refunded = false)
    (htime : height < order.timelock)
    (hmul : order.amount * 10 < U128_MOD)
    (hshort : dep < order.amount * 10 / 100) :
    matchOrder orders resolvers caller dep height oid =
      .error "Insufficient safety deposit" := by
  simp only [matchOrder, hlook]
  rw [if_neg (by simp [hauth]), if_neg (by simp [hunmatched]),
    if_neg (by simp [hclaimed, hrefunded]), if_neg (not_le.mpr htime)]
  simp only [show u128Mul order.amount 10 = .ok (order.amount * 10) from by
    simp [u128Mul, hmul]]
  rw [if_pos hshort]

theorem claimOrder_ok (orders : List (String × HTLCOrder)) (caller : String)
    (height : Nat) (oid p : String)
    (orders' : List (String × HTLCOrder)) (pay : String × Nat)
    (h : claimOrder orders caller height oid p = .ok (orders', pay)) :
    ∃ order bs, assocLookup orders oid = some order ∧
      order.resolver = some caller ∧
      order.is_claimed = false ∧ order.is_refunded = false ∧
      height < order.timelock ∧
      byteLen p = 64 ∧ hexDecode p = some bs ∧
      hexEncode (sha256 bs) = order.hashlock ∧
      orders' = insertSorted oid
        { order with is_claimed := true, preimage := some p } orders ∧
      pay = (caller, order.amount + order.resolver_fee) := by
  simp only [claimOrder] at h
  split at h
  · exact absurd h (by simp)
  · rename_i order hlook
    split at h
    · exact absurd h (by simp)
    · rename_i rsv hres
      split at h
      · exact absurd h (by simp)
      · split at h
        · exact absurd h (by simp)
        · split at h
          · exact absurd h (by simp)
          · split at h
            · exact absurd h (by simp)
            · rename_i hrsv hsettled htime hlen
              split at h
              · exact absurd h (by simp)
              · rename_i bs hdec
                split at h
                · exact absurd h (by simp)
                · rename_i hmatch
                  split at h
                  · exact absurd h (by simp)
                  · rename_i total heq
                    have htot : total = order.amount + order.resolver_fee := by
                      unfold u128Add at heq
                      split at heq
                      · exact (Except.ok.injEq _ _ ▸ heq).symm
                      · exact absurd heq (by simp)
                    subst htot
                    rw [not_not] at hrsv
                    subst hrsv
                    rw [not_le] at htime
                    rw [not_not] at hlen hmatch
                    simp only [Bool.or_eq_true, not_or, Bool.not_eq_true] at hsettled
                    simp only [Except.ok.injEq, Prod.mk.injEq] at h
                    obtain ⟨hords, hpay⟩ := h
                    subst hords
                    subst hpay
                    exact ⟨order, bs, hlook, hres, hsettled.1, hsettled.2,
                      htime, hlen, hdec, hmatch, rfl, rfl⟩

/-! ## Claim C4 -/

def c4Order : FusionPlusOrder :=
  { order_hash := "order1", hashlock := hash64a, timelocks := "0",
    maker := "maker1", resolver := "resolver1", amount := 1000000,
    resolver_fee := 50000, safety_deposit := 50000, status := .Matched,
    preimage := none, source_chain_id := 1, created_at := 2000,
    timeout := 3600000002000 }

def c4Store : Storage :=
  { config := testConfig, orders := [("order1", c4Order)],
    resolvers := [("resolver1", true)] }

def c4Resp : ResponseC :=
  { messages := [],
    events := [EventC.mk "fusion_order_created"
      [("order_hash", "order1"), ("maker", "maker1"), ("resolver", "resolver1"),
       ("amount", "1000000"), ("source_chain_id", "1")]],
    attributes := [("method", "execute_fusion_order"), ("order_hash", "order1")] }

def nearEmptyState : NearFusionState :=
  { orders := [], resolvers := [("resolver1", true)], owner := "owner1",
    min_safety_deposit_bps := 500 }

def slHashlock : String := hexEncode (sha256 (List.replicate 32 0))

def slResolvers : List (String × Bool) := [("resolver1", true)]

def slOrder0 : HTLCOrder :=
  { id := "o1", maker := "maker1", resolver := none, token_contract := none,
    amount := 900, hashlock := slHashlock, timelock := 200,
    destination_chain := "ethereum", destination_token := "USDC",
    destination_amount := 5, destination_address := "0xabc",
    resolver_fee := 100, safety_deposit := 0, is_claimed := false,
    is_refunded := false, preimage := none }

def slOrders0 : List (String × HTLCOrder) := [("o1", slOrder0)]

def slOrder1 : HTLCOrder :=
  { slOrder0 with resolver := some "resolver1", safety_deposit := 777 }

def slOrders1 : List (String × HTLCOrder) := [("o1", slOrder1)]

def slOrder1b : HTLCOrder :=
  { slOrder0 with resolver := some "resolver1", safety_deposit := 500 }

def slOrder2 : HTLCOrder :=
  { slOrder1 with is_claimed := true, preimage := some zeros64 }

def slOrders2 : List (String × HTLCOrder) := [("o1", slOrder2)]

def nearExecOrder : NearFusionOrder :=
  { order_hash := "n6", hashlock := zeros64, timelocks := 0, maker := "maker1",
    resolver := "resolver1", amount := 1000000, resolver_fee := 50000,
    safety_deposit := 50000, status := .Matched, preimage := none,
    source_chain_id := 1 }

def nearExecState : NearFusionState :=
  { orders := [("n6", nearExecOrder)], resolvers := [("resolver1", true)],
    owner := "owner1", min_safety_deposit_bps := 500 }

/-- Claim C4, counterexample to the claim as stated: the standalone
`match_order` stores the FULL attached deposit as the safety deposit —
matching the same order with attached deposits 777 and 500 stores 777 and
500 respectively, so the stored value is not a function of the amount and
a config ratio (the standalone contract has no config; it only checks the
deposit against a hard-coded ten percent of the amount, here 90); and the
NEAR fusion variant's shortfall failure is the bare panic "Insufficient
safety deposit" with no expected/actual figures, never
`InsufficientSafetyDeposit{expected, actual}`. -/
theorem C4_counterexample :
    matchOrder slOrders0 slResolvers "resolver1" 777 150 "o1" =
      .ok (slOrders1, slOrder1) ∧
    slOrder1.safety_deposit = 777 ∧
    matchOrder slOrders0 slResolvers "resolver1" 500 150 "o1" =
      .ok ([("o1", slOrder1b)], slOrder1b) ∧
    slOrder1b.safety_deposit = 500 ∧
    slOrder0.amount * 10 / 100 = 90 ∧
    nearExecuteFusionOrder nearEmptyState 1050000 "n5" zeros64 "maker1" "resolver1"
      1000000 50000 0 1 = .error "Insufficient safety deposit" := by
  exact ⟨by decide, by decide, by decide, by decide, by decide, by decide⟩

/-- Claim C4 (amended): in the Cosmos variant every successful creation
stores `safety_deposit = floor(amount * min_safety_deposit_bps / 10000)`
from the current config and requires attached funds of at least
`amount + resolver_fee + safety_deposit`, otherwise failing with
`InsufficientSafetyDeposit` carrying the exact expected total and amount
sent.  The NEAR fusion variant enforces the same deposit formula but a
shortfall aborts with the bare panic "Insufficient safety deposit"
carrying no figures.  The standalone variant's `match_order` checks the
attached deposit against the hard-coded ten percent of the order amount
and stores the full attached deposit — not a config-derived formula — as
the safety deposit. -/
theorem C4_amended :
    (∀ s env info oh hl tls mk amt fee scid ts s' r,
       executeFusionOrder s env info oh hl tls mk amt fee scid ts = .ok (s', r) →
       ∃ o, assocLookup s'.orders oh = some o ∧
         o.safety_deposit = amt * s.config.min_safety_deposit_bps / 10000 ∧
         amt + fee + o.safety_deposit ≤ sentFunds info s.config.native_denom) ∧
    (∀ s env info oh hl tls mk amt fee scid ts,
       (assocLookup s.resolvers info.sender).getD false = true →
       assocLookup s.orders oh = none →
       byteLen hl = 64 ∧ hl.data.all isAsciiHexDigit = true →
       amt * s.config.min_safety_deposit_bps < U128_MOD →
       amt + fee < U128_MOD →
       amt + fee + amt * s.config.min_safety_deposit_bps / 10000 < U128_MOD →
       sentFunds info s.config.native_denom <
         amt + fee + amt * s.config.min_safety_deposit_bps / 10000 →
       executeFusionOrder s env info oh hl tls mk amt fee scid ts =
         .error (.InsufficientSafetyDeposit
           (amt + fee + amt * s.config.min_safety_deposit_bps / 10000)
           (sentFunds info s.config.native_denom))) ∧
    (∀ st dep oh hl mk rsv amt fee tls scid st' o,
       nearExecuteFusionOrder st dep oh hl mk rsv amt fee tls scid = .ok (st', o) →
       o.safety_deposit = amt * st.min_safety_deposit_bps / 10000 ∧
       amt + fee + o.safety_deposit ≤ dep) ∧
    (∀ st dep oh hl mk rsv amt fee tls scid,
       (assocLookup st.resolvers rsv).getD false = true →
       assocLookup st.orders oh = none →
       amt + fee < U128_MOD →
       amt + fee ≤ dep →
       amt * st.min_safety_deposit_bps < U128_MOD →
       amt + fee + amt * st.min_safety_deposit_bps / 10000 < U128_MOD →
       dep < amt + fee + amt * st.min_safety_deposit_bps / 10000 →
       nearExecuteFusionOrder st dep oh hl mk rsv amt fee tls scid =
         .error "Insufficient safety deposit") ∧
    (∀ orders resolvers caller dep height oid orders' o',
       matchOrder orders resolvers caller dep height oid = .ok (orders', o') →
       ∃ order, assocLookup orders oid = some order ∧
         o'.safety_deposit = dep ∧ order.amount * 10 / 100 ≤ dep) ∧
    (∀ orders resolvers caller dep height oid order,
       (assocLookup resolvers caller).getD false = true →
       assocLookup orders oid = some order →
       order.resolver = none →
       order.is_claimed = false → order.is_refunded = false →
       height < order.timelock →
       order.amount * 10 < U128_MOD →
       dep < order.amount * 10 / 100 →
       matchOrder orders resolvers caller dep height oid =
         .error "Insufficient safety deposit") := by
  refine ⟨?_, ?_, ?_, ?_, ?_, ?_⟩
  · intro s env info oh hl tls mk amt fee scid ts s' r h
    obtain ⟨_, _, _, _, hsent, _, _, hord⟩ :=
      executeFusionOrder_ok s env info oh hl tls mk amt fee scid ts s' r h
    refine ⟨mkExecOrder s env info oh hl tls mk amt fee scid ts, ?_, rfl, hsent⟩
    rw [hord]
    exact assocLookup_insertSorted_self _ _ _
  · intro s env info oh hl tls mk amt fee scid ts hauth hfresh hhl hmul hadd1 hadd2 hsent
    rw [executeFusionOrder_eq s env info oh hl tls mk amt fee scid ts
      hauth hfresh hhl hmul hadd1 hadd2, if_pos hsent]
  · intro st dep oh hl mk rsv amt fee tls scid st' o h
    obtain ⟨hdep, hle, _⟩ :=
      nearExecuteFusionOrder_ok st dep oh hl mk rsv amt fee tls scid st' o h
    exact ⟨hdep, hle⟩
  · intro st dep oh hl mk rsv amt fee tls scid hauth hfresh hadd1 hdep1 hmul hadd2 hshort
    exact nearExecuteFusionOrder_insufficientSafety st dep oh hl mk rsv amt fee
      tls scid hauth hfresh hadd1 hdep1 hmul hadd2 hshort
  · intro orders resolvers caller dep height oid orders' o' h
    obtain ⟨order, hlook, ho', hdep, _⟩ :=
      matchOrder_ok orders resolvers caller dep height oid orders' o' h
    subst ho'
    exact ⟨order, hlook, rfl, hdep⟩
  · intro orders resolvers caller dep height oid order hauth hlook hunm hcl href
      htime hmul hshort
    exact matchOrder_insufficient orders resolvers caller dep height oid order
      hauth hlook hunm hcl href htime hmul hshort

/-- Claim C4 witness: the amended statement applied at concrete inputs,
including the spec scenario with amount 1,000,000, fee 50,000 and 500 bps
(1,100,000 attached succeeds storing a 50,000 deposit; 1,099,999 fails
with the exact figures). -/
theorem C4_witness :
    (∃ o, assocLookup c4Store.orders "order1" = some o ∧
       o.safety_deposit = 1000000 * storeEmpty.config.min_safety_deposit_bps / 10000 ∧
       1000000 + 50000 + o.safety_deposit ≤
         sentFunds (infoFunds 1100000) storeEmpty.config.native_denom) ∧
    executeFusionOrder storeEmpty envEarly (infoFunds 1099999) "order1" hash64a "0"
        "maker1" 1000000 50000 1 3600 =
      .error (.InsufficientSafetyDeposit 1100000 1099999) ∧
    (nearExecOrder.safety_deposit =
       1000000 * nearEmptyState.min_safety_deposit_bps / 10000 ∧
     1000000 + 50000 + nearExecOrder.safety_deposit ≤ 1100000) ∧
    nearExecuteFusionOrder nearEmptyState 1050000 "n6" zeros64 "maker1" "resolver1"
      1000000 50000 0 1 = .error "Insufficient safety deposit" ∧
    (∃ order, assocLookup slOrders0 "o1" = some order ∧
       slOrder1.safety_deposit = 777 ∧ order.amount * 10 / 100 ≤ 777) ∧
    matchOrder slOrders0 slResolvers "resolver1" 10 150 "o1" =
      .error "Insufficient safety deposit" := by
  have hexec : executeFusionOrder storeEmpty envEarly (infoFunds 1100000) "order1"
      hash64a "0" "maker1" 1000000 50000 1 3600 = .ok (c4Store, c4Resp) := by decide
  have hnear : nearExecuteFusionOrder nearEmptyState 1100000 "n6" zeros64 "maker1"
      "resolver1" 1000000 50000 0 1 = .ok (nearExecState, nearExecOrder) := by decide
  have hmatch : matchOrder slOrders0 slResolvers "resolver1" 777 150 "o1" =
      .ok (slOrders1, slOrder1) := by decide
  refine ⟨?_, ?_, ?_, ?_, ?_, ?_⟩
  · exact C4_amended.1 storeEmpty envEarly (infoFunds 1100000) "order1" hash64a "0"
      "maker1" 1000000 50000 1 3600 c4Store c4Resp hexec
  · exact C4_amended.2.1 storeEmpty envEarly (infoFunds 1099999) "order1" hash64a "0"
      "maker1" 1000000 50000 1 3600 (by decide) (by decide) (by decide) (by decide)
      (by decide) (by decide) (by decide)
  · exact C4_amended.2.2.1 nearEmptyState 1100000 "n6" zeros64 "maker1" "resolver1"
      1000000 50000 0 1 nearExecState nearExecOrder hnear
  · exact C4_amended.2.2.2.1 nearEmptyState 1050000 "n6" zeros64 "maker1" "resolver1"
      1000000 50000 0 1 (by decide) (by decide) (by decide) (by decide) (by decide)
      (by decide) (by decide)
  · exact C4_amended.2.2.2.2.1 slOrders0 slResolvers "resolver1" 777 150 "o1"
      slOrders1 slOrder1 hmatch
  · exact C4_amended.2.2.2.2.2 slOrders0 slResolvers "resolver1" 10 150 "o1"
      slOrder0 (by decide) (by decide) (by decide) (by decide) (by decide)
      (by decide) (by decide) (by decide)

/-! ## Claim C5 -/

/-- Claim C5, counterexample to the claim as stated: in the standalone
variant a successful claim issues a SINGLE transfer of
`amount + resolver_fee` to the RESOLVER — nothing to the maker and no
safety-deposit return in that call — contradicting the three-disbursement
structure the claim requires of every successful claim. -/
theorem C5_counterexample :
    claimOrder slOrders1 "resolver1" 160 "o1" zeros64 =
      .ok (slOrders2, ("resolver1", 1000)) ∧
    slOrder1.maker = "maker1" ∧
    ("resolver1" : String) ≠ "maker1" ∧
    slOrder1.amount = 900 ∧ slOrder1.resolver_fee = 100 ∧
    slOrder1.safety_deposit = 777 := by
  exact ⟨by decide, by decide, by decide, by decide, by decide, by decide⟩

/-- Claim C5 (amended): in the Cosmos variant every successful claim
stores the preimage, flips the status to Claimed, issues exactly the three
disbursements — amount to the maker, resolver fee to the resolver, safety
deposit back to the resolver — each omitted (not sent as a zero transfer)
when its amount is zero, and emits the claim event carrying order id,
resolver, preimage and amount.  In the standalone variant a successful
claim instead marks the order claimed, stores the preimage, and issues one
single transfer of `amount + resolver_fee` to the resolver, with no
payment to the maker and no safety-deposit return in that call. -/
theorem C5_amended :
    (∀ s env info oh p s' r,
       claimFusionOrder s env info oh p = .ok (s', r) →
       ∃ order, assocLookup s.orders oh = some order ∧
         assocLookup s'.orders oh =
           some { order with status := OrderStatus.Claimed, preimage := some p } ∧
         r.messages =
           (if order.amount = 0 then [] else
             [BankSend.mk order.maker [(s.config.native_denom, order.amount)]]) ++
           (if order.resolver_fee = 0 then [] else
             [BankSend.mk order.resolver [(s.config.native_denom, order.resolver_fee)]]) ++
           (if order.safety_deposit = 0 then [] else
             [BankSend.mk order.resolver [(s.config.native_denom, order.safety_deposit)]]) ∧
         r.events = [EventC.mk "fusion_order_claimed"
           [("order_hash", oh), ("resolver", order.resolver),
            ("preimage", p), ("amount", toString order.amount)]]) ∧
    (∀ orders caller height oid p orders' pay,
       claimOrder orders caller height oid p = .ok (orders', pay) →
       ∃ order, assocLookup orders oid = some order ∧
         assocLookup orders' oid =
           some { order with is_claimed := true, preimage := some p } ∧
         pay = (caller, order.amount + order.resolver_fee)) := by
  constructor
  · intro s env info oh p s' r h
    obtain ⟨order, hlook, _, _, _, _, _, _, hord, hmsgs, hevents⟩ :=
      claimFusionOrder_ok s env info oh p s' r h
    refine ⟨order, hlook, ?_, hmsgs, hevents⟩
    rw [hord]
    exact assocLookup_insertSorted_self _ _ _
  · intro orders caller height oid p orders' pay h
    obtain ⟨order, bs, hlook, _, _, _, _, _, _, _, hords, hpay⟩ :=
      claimOrder_ok orders caller height oid p orders' pay h
    refine ⟨order, hlook, ?_, hpay⟩
    rw [hords]
    exact assocLookup_insertSorted_self _ _ _

/-- Claim C5 witness: the amended statement applied at a concrete
successful Cosmos claim and a concrete successful standalone claim. -/
theorem C5_witness :
    (∃ order, assocLookup storeMatched.orders "order1" = some order ∧
      assocLookup storeClaimed.orders "order1" =
        some { order with status := OrderStatus.Claimed, preimage := some "hello" } ∧
      claimResp1.messages =
        (if order.amount = 0 then [] else
          [BankSend.mk order.maker [(storeMatched.config.native_denom, order.amount)]]) ++
        (if order.resolver_fee = 0 then [] else
          [BankSend.mk order.resolver
            [(storeMatched.config.native_denom, order.resolver_fee)]]) ++
        (if order.safety_deposit = 0 then [] else
          [BankSend.mk order.resolver
            [(storeMatched.config.native_denom, order.safety_deposit)]]) ∧
      claimResp1.events = [EventC.mk "fusion_order_claimed"
        [("order_hash", "order1"), ("resolver", order.resolver),
         ("preimage", "hello"), ("amount", toString order.amount)]]) ∧
    (∃ order, assocLookup slOrders1 "o1" = some order ∧
      assocLookup slOrders2 "o1" =
        some { order with is_claimed := true, preimage := some zeros64 } ∧
      ("resolver1", (1000 : Nat)) = ("resolver1", order.amount + order.resolver_fee)) := by
  have hclaim : claimFusionOrder storeMatched envEarly infoResolver "order1" "hello" =
      .ok (storeClaimed, claimResp1) := by decide
  have hsl : claimOrder slOrders1 "resolver1" 160 "o1" zeros64 =
      .ok (slOrders2, ("resolver1", 1000)) := by decide
  constructor
  · exact C5_amended.1 storeMatched envEarly infoResolver "order1" "hello"
      storeClaimed claimResp1 hclaim
  · exact C5_amended.2 slOrders1 "resolver1" 160 "o1" zeros64 slOrders2
      ("resolver1", 1000) hsl

end Fusion

namespace Fusion

/-! ## Claim C6 -/

/-- Claim C6, counterexample to the claim as stated: a standalone order
reached through `create_order`, `match_order` and `claim_order` ends with
its preimage set to a 64-character hex string whose STRING SHA-256 does
not hex-equal the hashlock even case-insensitively — only the preimage's
hex-decoded bytes hash to it — so the claimed preimage/hashlock relation
fails for that cited variant. -/
theorem C6_counterexample :
    createOrder [] "maker1" 1000 100 "o1" slHashlock 200 "ethereum" "USDC" 5
      "0xabc" 100 = .ok (slOrders0, slOrder0) ∧
    matchOrder slOrders0 slResolvers "resolver1" 777 150 "o1" =
      .ok (slOrders1, slOrder1) ∧
    claimOrder slOrders1 "resolver1" 160 "o1" zeros64 =
      .ok (slOrders2, ("resolver1", 1000)) ∧
    assocLookup slOrders2 "o1" = some slOrder2 ∧
    slOrder2.preimage = some zeros64 ∧ slOrder2.is_claimed = true ∧
    asciiLower (hexEncode (sha256 (strBytes zeros64))) ≠
      asciiLower slOrder2.hashlock := by
  exact ⟨by decide, by decide, by decide, by decide, by decide, by decide, by decide⟩

/-- Claim C6 (amended): in every reachable state of the Cosmos contract an
order's preimage is present iff its status is Claimed, and any present
preimage SHA-256-hashes (over its UTF-8 bytes, hex encoded) to the order's
hashlock up to ASCII case.  In the standalone variant, the only operation
that sets a preimage — a successful `claim_order` — simultaneously marks
the order claimed and stores a 64-byte hex preimage whose DECODED bytes
hash to the hashlock; the preimage string itself need not hash to it. -/
theorem C6_amended :
    (∀ s, Reachable s → ∀ k o, (k, o) ∈ s.orders →
      ((o.preimage.isSome = true ↔ o.status = .Claimed) ∧
       ∀ p, o.preimage = some p →
         asciiLower (hexEncode (sha256 (strBytes p))) = asciiLower o.hashlock)) ∧
    (∀ orders caller height oid p orders' pay,
       claimOrder orders caller height oid p = .ok (orders', pay) →
       ∃ order, assocLookup orders oid = some order ∧
         assocLookup orders' oid =
           some { order with is_claimed := true, preimage := some p } ∧
         byteLen p = 64 ∧
         ∃ bs, hexDecode p = some bs ∧ hexEncode (sha256 bs) = order.hashlock) := by
  constructor
  · intro s hs k o hmem
    obtain ⟨hiff, hhash⟩ := reachable_storageInv s hs k o hmem
    refine ⟨hiff, fun p hp => ?_⟩
    have hv := hhash p hp
    simpa [validate_preimage] using hv
  · intro orders caller height oid p orders' pay h
    obtain ⟨order, bs, hlook, _, _, _, _, hlen, hdec, hmatch, hords, _⟩ :=
      claimOrder_ok orders caller height oid p orders' pay h
    refine ⟨order, hlook, ?_, hlen, bs, hdec, hmatch⟩
    rw [hords]
    exact assocLookup_insertSorted_self _ _ _

/-- Claim C6 witness: the Cosmos half applied to a state reached through
instantiation, order creation and a successful claim; the standalone half
applied to a concrete successful `claim_order`. -/
theorem C6_witness :
    ((claimOrder1.preimage.isSome = true ↔ claimOrder1.status = .Claimed) ∧
     asciiLower (hexEncode (sha256 (strBytes "hello"))) =
       asciiLower claimOrder1.hashlock) ∧
    (∃ order, assocLookup slOrders1 "o1" = some order ∧
       assocLookup slOrders2 "o1" =
         some { order with is_claimed := true, preimage := some zeros64 } ∧
       byteLen zeros64 = 64 ∧
       ∃ bs, hexDecode zeros64 = some bs ∧
         hexEncode (sha256 bs) = order.hashlock) := by
  have h0 : instantiate infoResolver
      { admin := none, min_safety_deposit_bps := some 500,
        native_denom := "untrn" } = .ok (instStore, instResp) := by decide
  have h1 : execute instStore envEarly (infoFunds 1100000)
      (.ExecuteFusionOrder "order1" helloHashlock "0" "maker1" 1000000 50000 1 3600) =
      .ok (execStore1, execResp1) := by decide
  have h2 : execute execStore1 envEarly infoResolver
      (.ClaimFusionOrder "order1" "hello") = .ok (claimStore1, claimResp1) := by decide
  have hreach : Reachable claimStore1 :=
    .step _ _ _ _ _ _ (.step _ _ _ _ _ _ (.init _ _ _ _ h0) h1) h2
  have hsl : claimOrder slOrders1 "resolver1" 160 "o1" zeros64 =
      .ok (slOrders2, ("resolver1", 1000)) := by decide
  constructor
  · have hinv := C6_amended.1 claimStore1 hreach "order1" claimOrder1 (by decide)
    exact ⟨hinv.1, hinv.2 "hello" (by decide)⟩
  · exact C6_amended.2 slOrders1 "resolver1" 160 "o1" zeros64 slOrders2
      ("resolver1", 1000) hsl

/-! ## Claim C7 -/

def c7Order : FusionPlusOrder := { c4Order with timeout := 2000 }

def c7Store : Storage :=
  { config := testConfig, orders := [("order1", c7Order)],
    resolvers := [("resolver1", true)] }

/-- Claim C7, counterexample to the claim as stated: the Cosmos
`execute_fusion_order` performs no timeout validation; with
`timeout_seconds = 0` the creation succeeds and stores an order whose
timeout equals the current chain time. -/
theorem C7_counterexample :
    executeFusionOrder storeEmpty envEarly (infoFunds 1100000) "order1" hash64a "0"
        "maker1" 1000000 50000 1 0 = .ok (c7Store, c4Resp) ∧
    assocLookup c7Store.orders "order1" = some c7Order ∧
    c7Order.timeout = envEarly.blockTime := by
  exact ⟨by decide, by decide, by decide⟩

/-- Claim C7 (amended): only the standalone HTLC `create_order` validates
the timelock, failing unless it is strictly greater than the current block
height; the Cosmos `execute_fusion_order` performs no such check and
always stores `timeout = block_time + timeout_seconds`, so with
`timeout_seconds = 0` it creates an order whose timeout equals the current
time. -/
theorem C7_amended :
    (∀ orders caller dep height oid hl tl dc dt damt daddr fee,
       fee < dep →
       tl ≤ height →
       createOrder orders caller dep height oid hl tl dc dt damt daddr fee =
         .error "Timelock must be in the future") ∧
    (∀ s env info oh hl tls mk amt fee scid ts s' r,
       executeFusionOrder s env info oh hl tls mk amt fee scid ts = .ok (s', r) →
       ∃ o, assocLookup s'.orders oh = some o ∧
         o.timeout = env.blockTime + ts * 1000000000) := by
  constructor
  · intro orders caller dep height oid hl tl dc dt damt daddr fee hdep htl
    simp only [createOrder]
    rw [if_neg (not_le.mpr hdep), if_pos htl]
  · intro s env info oh hl tls mk amt fee scid ts s' r h
    obtain ⟨_, _, _, _, _, _, _, hord⟩ :=
      executeFusionOrder_ok s env info oh hl tls mk amt fee scid ts s' r h
    refine ⟨mkExecOrder s env info oh hl tls mk amt fee scid ts, ?_, rfl⟩
    rw [hord]
    exact assocLookup_insertSorted_self _ _ _

/-- Claim C7 witness: the amended statement applied at concrete inputs. -/
theorem C7_witness :
    createOrder [] "maker1" 1000 100 "o1" hash64a 50 "ethereum" "USDC" 5 "0xabc" 10 =
      .error "Timelock must be in the future" ∧
    (∃ o, assocLookup c4Store.orders "order1" = some o ∧
       o.timeout = envEarly.blockTime + 3600 * 1000000000) := by
  have hexec : executeFusionOrder storeEmpty envEarly (infoFunds 1100000) "order1"
      hash64a "0" "maker1" 1000000 50000 1 3600 = .ok (c4Store, c4Resp) := by decide
  constructor
  · exact C7_amended.1 [] "maker1" 1000 100 "o1" hash64a 50 "ethereum" "USDC" 5
      "0xabc" 10 (by decide) (by decide)
  · exact C7_amended.2 storeEmpty envEarly (infoFunds 1100000) "order1" hash64a "0"
      "maker1" 1000000 50000 1 3600 c4Store c4Resp hexec

/-! ## Claim C8 -/

def zzzOrder : HTLCOrder :=
  { id := "o1", maker := "maker1", resolver := none, token_contract := none,
    amount := 990, hashlock := zzz64, timelock := 200,
    destination_chain := "ethereum", destination_token := "USDC",
    destination_amount := 5, destination_address := "0xabc",
    resolver_fee := 10, safety_deposit := 0, is_claimed := false,
    is_refunded := false, preimage := none }

/-- Claim C8, counterexample to the claim as stated: the NEAR standalone
`create_order` accepts a hashlock of 64 characters that are not hex digits
— it validates only the length. -/
theorem C8_counterexample :
    createOrder [] "maker1" 1000 100 "o1" zzz64 200 "ethereum" "USDC" 5 "0xabc" 10 =
      .ok ([("o1", zzzOrder)], zzzOrder) ∧
    zzz64.data.all isAsciiHexDigit = false := by
  exact ⟨by decide, by decide⟩

/-- Claim C8 (amended): the Cosmos `execute_fusion_order` rejects with
`InvalidHashlock` any hashlock that is not exactly 64 hex characters of
either case and accepts any 64-hex-character hashlock (given the other
validations pass); the NEAR variants validate only that the hashlock is 64
bytes long and accept 64 non-hex characters. -/
theorem C8_amended :
    (∀ s env info oh hl tls mk amt fee scid ts,
       (assocLookup s.resolvers info.sender).getD false = true →
       assocLookup s.orders oh = none →
       ¬ (byteLen hl = 64 ∧ hl.data.all isAsciiHexDigit = true) →
       executeFusionOrder s env info oh hl tls mk amt fee scid ts =
         .error .InvalidHashlock) ∧
    (∀ s env info oh hl tls mk amt fee scid ts,
       (assocLookup s.resolvers info.sender).getD false = true →
       assocLookup s.orders oh = none →
       byteLen hl = 64 ∧ hl.data.all isAsciiHexDigit = true →
       amt * s.config.min_safety_deposit_bps < U128_MOD →
       amt + fee < U128_MOD →
       amt + fee + amt * s.config.min_safety_deposit_bps / 10000 < U128_MOD →
       amt + fee + amt * s.config.min_safety_deposit_bps / 10000 ≤
         sentFunds info s.config.native_denom →
       ∃ s' r, executeFusionOrder s env info oh hl tls mk amt fee scid ts =
         .ok (s', r)) ∧
    (∀ orders caller dep height oid hl tl dc dt damt daddr fee,
       fee < dep → height < tl → byteLen hl = 64 →
       assocLookup orders oid = none →
       ∃ out, createOrder orders caller dep height oid hl tl dc dt damt daddr fee =
         .ok out) := by
  refine ⟨?_, ?_, ?_⟩
  · intro s env info oh hl tls mk amt fee scid ts hauth hfresh hhl
    exact executeFusionOrder_invalidHashlock s env info oh hl tls mk amt fee scid ts
      hauth hfresh hhl
  · intro s env info oh hl tls mk amt fee scid ts hauth hfresh hhl hmul hadd1 hadd2 hsent
    rw [executeFusionOrder_eq s env info oh hl tls mk amt fee scid ts
      hauth hfresh hhl hmul hadd1 hadd2, if_neg (not_lt.mpr hsent)]
    exact ⟨_, _, rfl⟩
  · intro orders caller dep height oid hl tl dc dt damt daddr fee hdep htl hhl hfresh
    simp only [createOrder]
    rw [if_neg (not_le.mpr hdep), if_neg (not_le.mpr htl), if_neg (by simp [hhl]),
      if_neg (by simp [hfresh])]
    exact ⟨_, rfl⟩

/-- Claim C8 witness: the amended statement applied at concrete inputs. -/
theorem C8_witness :
    executeFusionOrder storeEmpty envEarly (infoFunds 1100000) "order1" "nothex" "0"
        "maker1" 1000000 50000 1 3600 = .error .InvalidHashlock ∧
    (∃ s' r, executeFusionOrder storeEmpty envEarly (infoFunds 1100000) "order1"
        hash64a "0" "maker1" 1000000 50000 1 3600 = .ok (s', r)) ∧
    (∃ out, createOrder [] "maker1" 1000 100 "o1" zzz64 200 "ethereum" "USDC" 5
        "0xabc" 10 = .ok out) := by
  refine ⟨?_, ?_, ?_⟩
  · exact C8_amended.1 storeEmpty envEarly (infoFunds 1100000) "order1" "nothex" "0"
      "maker1" 1000000 50000 1 3600 (by decide) (by decide) (by decide)
  · exact C8_amended.2.1 storeEmpty envEarly (infoFunds 1100000) "order1" hash64a "0"
      "maker1" 1000000 50000 1 3600 (by decide) (by decide) (by decide) (by decide)
      (by decide) (by decide) (by decide)
  · exact C8_amended.2.2 [] "maker1" 1000 100 "o1" zzz64 200 "ethereum" "USDC" 5
      "0xabc" 10 (by decide) (by decide) (by decide) (by decide)

/-! ## Claim C9 -/

def bigOrder : FusionPlusOrder :=
  { matchedOrder with amount := U128_MOD - 1, resolver_fee := 1 }

def storeBig : Storage :=
  { config := testConfig, orders := [("order1", bigOrder)],
    resolvers := [("resolver1", true)] }

/-- Claim C9, counterexample to the claim as stated: the NEAR variant's
`execute_fusion_order` computes `amount + resolver_fee` with plain `u128`
addition; on overflow the call aborts with the generic arithmetic panic
(or would wrap silently without overflow checks) — the NEAR contract has
no distinct Overflow error at all. -/
theorem C9_counterexample :
    nearExecuteFusionOrder nearEmptyState 0 "n3" zeros64 "maker1" "resolver1"
      (U128_MOD - 1) 1 0 1 = .error "attempt to add with overflow" := by
  decide

/-- Claim C9 (amended): in the Cosmos variant every arithmetic step over
amount, fee, deposit and the bps multiplication/division is
overflow-checked and surfaces the distinct `Overflow` error, in both order
creation and refund; the NEAR variants use plain u128 arithmetic with no
Overflow error — overflow aborts the call with a generic arithmetic panic
instead. -/
theorem C9_amended :
    (∀ s env info oh hl tls mk amt fee scid ts,
       (assocLookup s.resolvers info.sender).getD false = true →
       assocLookup s.orders oh = none →
       byteLen hl = 64 ∧ hl.data.all isAsciiHexDigit = true →
       U128_MOD ≤ amt * s.config.min_safety_deposit_bps →
       executeFusionOrder s env info oh hl tls mk amt fee scid ts =
         .error .Overflow) ∧
    (∀ s env info oh hl tls mk amt fee scid ts,
       (assocLookup s.resolvers info.sender).getD false = true →
       assocLookup s.orders oh = none →
       byteLen hl = 64 ∧ hl.data.all isAsciiHexDigit = true →
       amt * s.config.min_safety_deposit_bps < U128_MOD →
       U128_MOD ≤ amt + fee + amt * s.config.min_safety_deposit_bps / 10000 →
       executeFusionOrder s env info oh hl tls mk amt fee scid ts =
         .error .Overflow) ∧
    (∀ s env info oh order,
       assocLookup s.orders oh = some order →
       order.timeout ≤ env.blockTime →
       order.status ≠ .Claimed → order.status ≠ .Refunded →
       (info.sender = order.maker ∨ info.sender = order.resolver) →
       U128_MOD ≤ order.amount + order.resolver_fee + order.safety_deposit →
       refundOrder s env info oh = .error .Overflow) ∧
    (∀ st dep oh hl mk rsv amt fee tls scid,
       (assocLookup st.resolvers rsv).getD false = true →
       assocLookup st.orders oh = none →
       U128_MOD ≤ amt + fee →
       nearExecuteFusionOrder st dep oh hl mk rsv amt fee tls scid =
         .error "attempt to add with overflow") := by
  refine ⟨?_, ?_, ?_, ?_⟩
  · intro s env info oh hl tls mk amt fee scid ts hauth hfresh hhl hmul
    exact executeFusionOrder_overflow_mul s env info oh hl tls mk amt fee scid ts
      hauth hfresh hhl hmul
  · intro s env info oh hl tls mk amt fee scid ts hauth hfresh hhl hmul htot
    exact executeFusionOrder_overflow_add s env info oh hl tls mk amt fee scid ts
      hauth hfresh hhl hmul htot
  · intro s env info oh order hlook htime hncl hnref hcaller htot
    exact refundOrder_overflow s env info oh order hlook htime hncl hnref hcaller htot
  · intro st dep oh hl mk rsv amt fee tls scid hauth hfresh hov
    simp only [nearExecuteFusionOrder]
    rw [if_neg (by simp [hauth]), if_neg (by simp [hfresh])]
    simp only [show u128Add amt fee = .error "attempt to add with overflow" from by
      simp [u128Add, not_lt.mpr hov]]

/-- Claim C9 witness: the amended statement applied at concrete inputs. -/
theorem C9_witness :
    executeFusionOrder storeEmpty envEarly (infoFunds 0) "order1" hash64a "0" "maker1"
      (U128_MOD - 1) 0 1 3600 = .error .Overflow ∧
    executeFusionOrder storeEmpty envEarly (infoFunds 0) "order1" hash64a "0" "maker1"
      10 (U128_MOD - 1) 1 3600 = .error .Overflow ∧
    refundOrder storeBig envLate infoResolver "order1" = .error .Overflow ∧
    nearExecuteFusionOrder nearEmptyState 0 "n4" zeros64 "maker1" "resolver1"
      (U128_MOD - 1) 1 0 1 = .error "attempt to add with overflow" := by
  refine ⟨?_, ?_, ?_, ?_⟩
  · exact C9_amended.1 storeEmpty envEarly (infoFunds 0) "order1" hash64a "0" "maker1"
      (U128_MOD - 1) 0 1 3600 (by decide) (by decide) (by decide) (by decide)
  · exact C9_amended.2.1 storeEmpty envEarly (infoFunds 0) "order1" hash64a "0"
      "maker1" 10 (U128_MOD - 1) 1 3600 (by decide) (by decide) (by decide)
      (by decide) (by decide)
  · exact C9_amended.2.2.1 storeBig envLate infoResolver "order1" bigOrder
      (by decide) (by decide) (by decide) (by decide) (Or.inr (by decide)) (by decide)
  · exact C9_amended.2.2.2 nearEmptyState 0 "n4" zeros64 "maker1" "resolver1"
      (U128_MOD - 1) 1 0 1 (by decide) (by decide) (by decide)

/-! ## Claim C10 -/

def ordA : FusionPlusOrder :=
  { matchedOrder with
    order_hash := "a"
    status := OrderStatus.Claimed
    preimage := some "hello" }

def ordB : FusionPlusOrder := { matchedOrder with order_hash := "b" }

def storeTwo : Storage :=
  { config := testConfig, orders := [("a", ordA), ("b", ordB)], resolvers := [] }

/-- Claim C10: in the Cosmos ListOrders query the limit (default 30,
capped at 100) truncates the ascending key-ordered scan before the status
filter runs, so a filtered query can return fewer than `limit` matching
orders even though further matching orders exist beyond the first `limit`
keys — the result is not the first `limit` matching orders. -/
theorem C10 :
    queryListOrders storeTwo (some .Matched) none (some 1) = [] ∧
    ordB.status = .Matched ∧ ("b", ordB) ∈ storeTwo.orders ∧
    listOrdersFilterFirst storeTwo (some .Matched) none (some 1) = [ordB] ∧
    (∀ s st sa, queryListOrders s st sa none = queryListOrders s st sa (some 30)) ∧
    (∀ s st sa l, queryListOrders s st sa (some l) =
       queryListOrders s st sa (some (min l 100))) := by
  refine ⟨by decide, by decide, by decide, by decide, ?_, ?_⟩
  · intro s st sa
    simp [queryListOrders]
  · intro s st sa l
    simp [queryListOrders, Nat.min_assoc]

end Fusion
